import Mathlib

/-!
Shallow embedding of the roleplay-chatbot repository core (`chatbot.py`,
`game_logic.py`) and proofs of the specification claims about it.

Python strings are modelled as Lean `String`/`List Char`; Python dict/JSON
values as the inductive `JVal`; fallible operations return `Option`/`Except`.
All definitions are translated from the source files; spec-side reference
definitions (used only to compare the spec wording with the code) are
prefixed with `spec`.
-/

namespace RPChat

set_option maxRecDepth 16384

/-- Python `str.strip()` whitespace characters. -/
def isPySpace (c : Char) : Bool :=
  c = ' ' || c = '\t' || c = '\n' || c = '\r' || c = '\x0b' || c = '\x0c'

/-- Strip Python whitespace from both ends of a character list. -/
def pyStripChars (l : List Char) : List Char :=
  ((l.dropWhile isPySpace).reverse.dropWhile isPySpace).reverse

/-- Python `str.strip()`. -/
def pyStrip (s : String) : String := ⟨pyStripChars s.data⟩

/-- Is `pat` a contiguous sublist of `hay`? -/
def listContains : List Char → List Char → Bool
  | [], pat => pat.isEmpty
  | c :: t, pat => pat.isPrefixOf (c :: t) || listContains t pat

/-- Python `needle in haystack` substring test. -/
def strContains (hay pat : String) : Bool := listContains hay.data pat.data

/-- Python `str.startswith`. -/
def strStarts (s pat : String) : Bool := pat.data.isPrefixOf s.data

/-- ASCII lower-casing of one character (Python `str.lower` on ASCII input). -/
def lowerChar (c : Char) : Char :=
  if 'A' ≤ c ∧ c ≤ 'Z' then Char.ofNat (c.toNat + 32) else c

/-- Python `str.lower()` (ASCII; all strings handled by the code are ASCII). -/
def pyLower (s : String) : String := ⟨s.data.map lowerChar⟩

/-- Word counter for Python `len(s.split())`: counts maximal runs of
non-whitespace characters.  Second argument: currently inside a word. -/
def wordCountAux : List Char → Bool → Nat
  | [], _ => 0
  | c :: t, inw =>
    if isPySpace c then wordCountAux t false
    else (if inw then 0 else 1) + wordCountAux t true

/-- Python `len(s.split())`. -/
def pyWordCount (s : String) : Nat := wordCountAux s.data false

/-- Fuel-driven decimal digit accumulation (a fuel of `n` always
suffices since the value shrinks by a factor of 10 per step). -/
def natDigitsAux : Nat → Nat → List Char
  | 0, n => [Nat.digitChar (n % 10)]
  | fuel + 1, n =>
    if n < 10 then [Nat.digitChar n]
    else natDigitsAux fuel (n / 10) ++ [Nat.digitChar (n % 10)]

/-- Decimal digit list of a natural number. -/
def natDigits (n : Nat) : List Char := natDigitsAux n n

/-- Python `str` of a non-negative int. -/
def natStr (n : Nat) : String := ⟨natDigits n⟩

/-- Python `str` of an int. -/
def pyIntStr (i : Int) : String :=
  if i < 0 then ⟨'-' :: natDigits i.natAbs⟩ else ⟨natDigits i.natAbs⟩

/-- Concatenation of a list of strings (the `full_content += chunk` /
`streamed_response += chunk` accumulation). -/
def strJoin : List String → String
  | [] => ""
  | s :: rest => s ++ strJoin rest

/-! ## JSON values (model of parsed Python `json.loads` output) -/

/-- A JSON value as produced by `json.loads`. -/
inductive JVal where
  | null
  | bool (b : Bool)
  | num (n : Int)
  | str (s : String)
  | arr (l : List JVal)
  | obj (fields : List (String × JVal))

/-- Python `dict.get(key)` on a JSON object (`none` when not an object or
the key is absent). -/
def JVal.getField : JVal → String → Option JVal
  | .obj fs, k => (fs.find? (fun p => p.1 == k)).map (·.2)
  | _, _ => none

/-- Python truthiness of a JSON value. -/
def JVal.truthy : JVal → Bool
  | .null => false
  | .bool b => b
  | .num n => n ≠ 0
  | .str s => s ≠ ""
  | .arr l => !l.isEmpty
  | .obj fs => !fs.isEmpty

/-- One key of a JSON content path (`content_paths` entries mix string field
names and integer list indices). -/
inductive JKey where
  | f (name : String)
  | i (idx : Nat)
deriving DecidableEq

/-- The guarded path traversal used by both `ChatClient.chat` and
`ChatClient._extract_content_simple`: an integer key only applies to a
sufficiently long list, a string key only to a dict containing it;
otherwise the path fails. -/
def tryPath (v : JVal) : List JKey → Option JVal
  | [] => some v
  | .i n :: rest =>
    match v with
    | .arr l => if h : n < l.length then tryPath (l.get ⟨n, h⟩) rest else none
    | _ => none
  | .f name :: rest =>
    match v.getField name with
    | some v2 => tryPath v2 rest
    | none => none

/-- `for path in paths: ... if value and isinstance(value, str): return value`:
the first path that resolves to a non-empty string. -/
def firstPathString : List (List JKey) → JVal → Option String
  | [], _ => none
  | p :: rest, v =>
    match tryPath v p with
    | some (.str s) => if s ≠ "" then some s else firstPathString rest v
    | _ => firstPathString rest v

/-! ## Provider detection (`ChatClient._detect_provider`) -/

/-- The `config` block of one entry of `detection_patterns`. -/
structure ProviderConfig where
  authHeader : Option String
  authFormat : String
  contentPaths : List (List JKey)
  payloadStyle : String
  requiresMaxTokens : Bool := false
deriving DecidableEq

/-- One entry of `detection_patterns` in `ChatClient._detect_provider`. -/
structure ProviderPattern where
  pname : String
  urlPatterns : List String
  explicitNames : List String
  modelIndicators : List String
  config : ProviderConfig

def openaiPattern : ProviderPattern :=
  { pname := "openai"
    urlPatterns := ["api.openai.com"]
    explicitNames := ["openai", "gpt"]
    modelIndicators := ["gpt-4", "gpt-3.5", "gpt-4o"]
    config :=
      { authHeader := some "Authorization"
        authFormat := "Bearer {}"
        contentPaths :=
          [[.f "choices", .i 0, .f "delta", .f "content"],
           [.f "choices", .i 0, .f "message", .f "content"]]
        payloadStyle := "openai" } }

def anthropicPattern : ProviderPattern :=
  { pname := "anthropic"
    urlPatterns := ["api.anthropic.com", "anthropic"]
    explicitNames := ["anthropic", "claude"]
    modelIndicators := ["claude-3", "claude-2", "claude-instant"]
    config :=
      { authHeader := some "x-api-key"
        authFormat := "{}"
        contentPaths :=
          [[.f "content", .i 0, .f "text"],
           [.f "completion"],
           [.f "delta", .f "text"]]
        payloadStyle := "anthropic" } }

def ollamaPattern : ProviderPattern :=
  { pname := "ollama"
    urlPatterns := ["11434", "ollama", "/api/chat"]
    explicitNames := ["ollama"]
    modelIndicators :=
      ["llama3.1", "llama3:latest", "mistral", "codellama", "vicuna", "gemma:2b"]
    config :=
      { authHeader := none
        authFormat := "{}"
        contentPaths :=
          [[.f "message", .f "content"],
           [.f "choices", .i 0, .f "delta", .f "content"],
           [.f "choices", .i 0, .f "message", .f "content"],
           [.f "response"]]
        payloadStyle := "openai" } }

def groqPattern : ProviderPattern :=
  { pname := "groq"
    urlPatterns := ["api.groq.com", "groq"]
    explicitNames := ["groq"]
    modelIndicators :=
      ["llama-3.1-8b-instant", "meta-llama/llama", "mixtral", "gemma2-9b-it"]
    config :=
      { authHeader := some "Authorization"
        authFormat := "Bearer {}"
        contentPaths :=
          [[.f "choices", .i 0, .f "delta", .f "content"],
           [.f "choices", .i 0, .f "message", .f "content"]]
        payloadStyle := "openai" } }

def lmstudioPattern : ProviderPattern :=
  { pname := "lmstudio"
    urlPatterns := ["1234", "lmstudio"]
    explicitNames := ["lmstudio"]
    modelIndicators := ["local-model"]
    config :=
      { authHeader := some "Authorization"
        authFormat := "Bearer {}"
        contentPaths :=
          [[.f "choices", .i 0, .f "delta", .f "content"],
           [.f "choices", .i 0, .f "message", .f "content"]]
        payloadStyle := "openai" } }

def textgenPattern : ProviderPattern :=
  { pname := "textgen"
    urlPatterns := ["5000", "textgen", "text-generation-webui"]
    explicitNames := ["textgen", "webui"]
    modelIndicators := ["local-model"]
    config :=
      { authHeader := some "Authorization"
        authFormat := "Bearer {}"
        contentPaths :=
          [[.f "choices", .i 0, .f "delta", .f "content"],
           [.f "choices", .i 0, .f "message", .f "content"]]
        payloadStyle := "openai" } }

def vllmPattern : ProviderPattern :=
  { pname := "vllm"
    urlPatterns := ["8000", "vllm"]
    explicitNames := ["vllm"]
    modelIndicators := ["local-model"]
    config :=
      { authHeader := some "Authorization"
        authFormat := "Bearer {}"
        contentPaths :=
          [[.f "choices", .i 0, .f "delta", .f "content"],
           [.f "choices", .i 0, .f "message", .f "content"]]
        payloadStyle := "openai" } }

def geminiPattern : ProviderPattern :=
  { pname := "gemini"
    urlPatterns := ["generativelanguage.googleapis.com", "gemini"]
    explicitNames := ["gemini", "google"]
    modelIndicators :=
      ["gemini-3", "gemini-2", "gemini-1.5", "gemini-pro", "gemini-flash"]
    config :=
      { authHeader := some "Authorization"
        authFormat := "Bearer {}"
        contentPaths :=
          [[.f "choices", .i 0, .f "delta", .f "content"],
           [.f "choices", .i 0, .f "message", .f "content"]]
        payloadStyle := "openai"
        requiresMaxTokens := true } }

def deepseekPattern : ProviderPattern :=
  { pname := "deepseek"
    urlPatterns := ["api.deepseek.com", "deepseek"]
    explicitNames := ["deepseek"]
    modelIndicators := ["deepseek-chat", "deepseek-coder", "deepseek-reasoner"]
    config :=
      { authHeader := some "Authorization"
        authFormat := "Bearer {}"
        contentPaths :=
          [[.f "choices", .i 0, .f "delta", .f "content"],
           [.f "choices", .i 0, .f "message", .f "content"]]
        payloadStyle := "openai" } }

/-- `detection_patterns` in Python dict insertion order. -/
def detectionPatterns : List ProviderPattern :=
  [openaiPattern, anthropicPattern, ollamaPattern, groqPattern,
   lmstudioPattern, textgenPattern, vllmPattern, geminiPattern, deepseekPattern]

/-- Does a provider entry match the lowercased URL (`any(pattern in url_lower
for pattern in data["url_patterns"])`)? -/
def urlMatches (urlLower : String) (d : ProviderPattern) : Bool :=
  d.urlPatterns.any (fun p => strContains urlLower p)

/-- Priority-2 match: `provider in provider_lower or any(name in provider_lower
for name in data["explicit_names"])`. -/
def hintMatches (providerLower : String) (d : ProviderPattern) : Bool :=
  strContains providerLower d.pname ||
    d.explicitNames.any (fun n => strContains providerLower n)

/-- Priority-3 match: `any(indicator in model_lower for indicator in
data["model_indicators"])`. -/
def modelMatches (modelLower : String) (d : ProviderPattern) : Bool :=
  d.modelIndicators.any (fun ind => strContains modelLower ind)

/-- `ChatClient._detect_provider` (memoization elided: the cache is
write-once per client instance, so detection is a pure function of the
client's url / explicit provider / model).  Returns the detected provider
id and the wire-contract config. -/
def detect_provider (apiUrl apiProvider model : Option String) :
    String × ProviderConfig :=
  let urlLower := pyLower (apiUrl.getD "")
  let providerLower := pyLower (apiProvider.getD "")
  match detectionPatterns.find? (urlMatches urlLower) with
  | some d => (d.pname, d.config)
  | none =>
    match (if providerLower ≠ "" ∧ providerLower ≠ "auto" then
             detectionPatterns.find? (hintMatches providerLower)
           else none) with
    | some d => (d.pname, d.config)
    | none =>
      let modelLower := pyLower (model.getD "")
      match detectionPatterns.find? (modelMatches modelLower) with
      | some d => (d.pname, d.config)
      | none => ("generic_openai", openaiPattern.config)

/-! ## Messages, generation settings and payloads
(`ChatClient._build_payload`, `ChatClient._build_anthropic_payload`) -/

/-- One chat message `{"role": ..., "content": ...}`. -/
structure Message where
  role : String
  content : String
deriving DecidableEq

/-- The generation parameters held in `self.ai_settings`
(`Config.get_ai_settings()`); a `none` field models an absent/None value. -/
structure AISettings where
  temperature : Option Rat := none
  max_tokens : Option Nat := none
  top_p : Option Rat := none
deriving DecidableEq

/-- The outgoing request payload (dict); `none` models an absent key. -/
structure Payload where
  model : Option String
  messages : List Message
  stream : Bool
  max_tokens : Option Nat := none
  temperature : Option Rat := none
  top_p : Option Rat := none
  system : Option String := none
deriving DecidableEq

/-- The system-content accumulation loop of `_build_anthropic_payload`:
a blank-line separator is added only when the accumulator is non-empty. -/
def systemConcat (messages : List Message) : String :=
  messages.foldl
    (fun acc m =>
      if m.role == "system" then
        (if acc ≠ "" then acc ++ "\n\n" else acc) ++ m.content
      else acc) ""

/-- The contents of the system messages, in original order. -/
def systemContents (messages : List Message) : List String :=
  (messages.filter (fun m => m.role == "system")).map (·.content)

/-- Spec-side reference definition, following the spec's words only:
"the contents of all system messages are concatenated in their original
order, separated by a blank line". -/
def specBlankLineJoin : List String → String
  | [] => ""
  | [c] => c
  | c :: rest => c ++ "\n\n" ++ specBlankLineJoin rest

/-- `ChatClient._build_anthropic_payload`. -/
def build_anthropic_payload (model : Option String) (finalStep : Bool)
    (settings : AISettings) (messages : List Message) (stream : Bool) : Payload :=
  let systemContent := systemConcat messages
  let filtered := messages.filter (fun m => m.role ≠ "system")
  let base : Payload :=
    { model, messages := filtered, stream, max_tokens := some 1024,
      system := if systemContent ≠ "" then some systemContent else none }
  if finalStep then
    { base with max_tokens := some 400, temperature := some (1/2 : Rat) }
  else
    let p1 := match settings.max_tokens with
      | some m => { base with max_tokens := some m }
      | none => base
    let p2 := match settings.temperature with
      | some t => { p1 with temperature := some t }
      | none => p1
    match settings.top_p with
    | some t => { p2 with top_p := some t }
    | none => p2

/-- The OpenAI-compatible branch of `ChatClient._build_payload` (after the
Anthropic dispatch), including the Gemini `max_tokens` injection. -/
def build_openai_payload (model : Option String) (detected : String)
    (cfg : ProviderConfig) (finalStep : Bool) (settings : AISettings)
    (messages : List Message) (stream : Bool) : Payload :=
  let base : Payload := { model, messages, stream }
  let p :=
    if finalStep then
      { base with max_tokens := some 400, temperature := some (1/2 : Rat) }
    else
      let p1 := match settings.temperature with
        | some t => { base with temperature := some t }
        | none => base
      let p2 := match settings.max_tokens with
        | some m => { p1 with max_tokens := some m }
        | none => p1
      match settings.top_p with
      | some t => { p2 with top_p := some t }
      | none => p2
  if (cfg.requiresMaxTokens || detected == "gemini") && p.max_tokens.isNone then
    { p with max_tokens := some 1024 }
  else p

/-- `ChatClient._build_payload`: dispatches to the Anthropic builder when the
detected config's payload style is `"anthropic"`. -/
def build_payload (model : Option String) (detected : String)
    (cfg : ProviderConfig) (finalStep : Bool) (settings : AISettings)
    (messages : List Message) (stream : Bool) : Payload :=
  if cfg.payloadStyle == "anthropic" then
    build_anthropic_payload model finalStep settings messages stream
  else
    build_openai_payload model detected cfg finalStep settings messages stream

/-! ## Streaming content extraction
(`ChatClient._extract_content_simple`, `ChatClient._parse_stream_response_simple`) -/

/-- The hard-coded `paths_to_try` list inside `_extract_content_simple`
(used for every non-Anthropic dialect, regardless of the detected
provider's declared `content_paths`). -/
def fixedExtractPaths : List (List JKey) :=
  [[.f "choices", .i 0, .f "delta", .f "content"],
   [.f "choices", .i 0, .f "message", .f "content"],
   [.f "message", .f "content"],
   [.f "response"]]

/-- The Anthropic branch of `_extract_content_simple`: only
`content_block_delta` events with a `text_delta` delta contribute text.
(Non-string `"text"` values are outside the modelled scope.) -/
def anthropicDeltaText (data : JVal) : String :=
  match data.getField "type" with
  | some (.str "content_block_delta") =>
    let delta := (data.getField "delta").getD (.obj [])
    match delta.getField "type" with
    | some (.str "text_delta") =>
      match (delta.getField "text").getD (.str "") with
      | .str s => s
      | _ => ""
    | _ => ""
  | _ => ""

/-- `ChatClient._extract_content_simple`.  `parsed` is the oracle result of
`json.loads jsonStr` (`none` models a `json.JSONDecodeError`). -/
def extract_content_simple (jsonStr : String) (parsed : Option JVal)
    (isAnthropic : Bool) : String :=
  if jsonStr = "" || jsonStr = "[DONE]" || jsonStr = "data: [DONE]" then ""
  else
    match parsed with
    | none => ""
    | some data =>
      if isAnthropic then anthropicDeltaText data
      else (firstPathString fixedExtractPaths data).getD ""

/-- One raw line delivered by `response.iter_lines`. -/
inductive RawLine where
  | undecodable
  | txt (s : String)
  | iterExn (msg : String)

/-- `ChatClient._parse_stream_response_simple`: returns the yielded chunks
and, when the line iterator raised mid-stream (`iterExn`), the exception
message that escapes to the caller. -/
def parse_stream_simple (jsonParse : String → Option JVal) (isAnthropic : Bool) :
    List RawLine → List String × Option String
  | [] => ([], none)
  | .iterExn m :: _ => ([], some m)
  | .undecodable :: rest => parse_stream_simple jsonParse isAnthropic rest
  | .txt s :: rest =>
    if s = "" then parse_stream_simple jsonParse isAnthropic rest
    else
      let line := pyStrip s
      if strStarts line "event:" then parse_stream_simple jsonParse isAnthropic rest
      else if strStarts line "data: " then
        let data := pyStrip ⟨line.data.drop 6⟩
        if data = "[DONE]" || data = "data: [DONE]" then ([], none)
        else if data ≠ "" then
          let c := extract_content_simple data (jsonParse data) isAnthropic
          if c ≠ "" then
            let (cs, e) := parse_stream_simple jsonParse isAnthropic rest
            (c :: cs, e)
          else parse_stream_simple jsonParse isAnthropic rest
        else parse_stream_simple jsonParse isAnthropic rest
      else parse_stream_simple jsonParse isAnthropic rest

/-! ## HTTP environment and the non-streaming `chat` operation -/

/-- One HTTP response: status code, `response.text`, the stream lines of
`iter_lines`, and the oracle result of `response.json()`
(`.error` models a decode exception). -/
structure HttpResp where
  status : Nat
  text : String
  lines : List RawLine
  body : Except String JVal

/-- Outcome of one `requests.post` call: either a raised
`RequestException` or a response. -/
inductive PostResult where
  | exn (msg : String)
  | resp (r : HttpResp)

/-- The chat client's configuration fields used by the modelled operations. -/
structure ChatClient where
  api_url : Option String
  model : Option String
  api_provider : Option String
  ai_settings : AISettings
  is_final_step : Bool

/-- The detected provider id of a client (`self._detected_provider`). -/
def ChatClient.detected (c : ChatClient) : String :=
  (detect_provider c.api_url c.api_provider c.model).1

/-- The content paths tried by `ChatClient.chat` for OpenAI-compatible
responses (the hard-coded `content_paths` list in `chat`). -/
def chatContentPaths : List (List JKey) :=
  [[.f "choices", .i 0, .f "message", .f "content"],
   [.f "message", .f "content"],
   [.f "response"],
   [.f "completion"]]

/-- The Anthropic content-block scan in `ChatClient.chat`:
`.ok (some t)` = extracted text, `.ok none` = loop fell through,
`.error` = a Python exception escaping to the outer handler. -/
def anthropicBlocksExtract : List JVal → Except String (Option String)
  | [] => .ok none
  | b :: rest =>
    match b with
    | .obj _ =>
      match b.getField "type" with
      | some (.str "text") =>
        match (b.getField "text").getD (.str "") with
        | .str s => if s ≠ "" then .ok (some (pyStrip s)) else anthropicBlocksExtract rest
        | v => if v.truthy then .error "AttributeError" else anthropicBlocksExtract rest
      | _ => anthropicBlocksExtract rest
    | _ => .error "AttributeError"

/-- `ChatClient.chat`: non-streaming chat completion.  The outer
`except Exception` makes it total: every exception becomes a
`"Request failed: ..."` string. -/
def chat (c : ChatClient) (post : PostResult) : String :=
  match post with
  | .exn m => "Request failed: " ++ m
  | .resp r =>
    if r.status ≠ 200 then "Error: HTTP " ++ natStr r.status
    else
      match r.body with
      | .error m => "Request failed: " ++ m
      | .ok result =>
        if c.detected = "anthropic" then
          match (result.getField "content").getD (.arr []) with
          | .arr l =>
            if l.isEmpty then "Error: Could not extract content from Anthropic response"
            else
              match anthropicBlocksExtract l with
              | .error m => "Request failed: " ++ m
              | .ok (some t) => t
              | .ok none => "Error: Could not extract content from Anthropic response"
          | _ => "Error: Could not extract content from Anthropic response"
        else
          match firstPathString chatContentPaths result with
          | some v => pyStrip v
          | none => "Error: Could not extract content from response"

/-! ## The streaming `chat_streaming` operation -/

/-- Network environment of one `chat_streaming` call: the streaming POST,
the non-streaming fallback POST, the POST made by `chat` on the final-step
path, and the `json.loads` oracle. -/
structure StreamEnv where
  firstPost : PostResult
  secondPost : PostResult
  chatPost : PostResult
  jsonParse : String → Option JVal

/-- `requests.Response.raise_for_status` raises for 4xx/5xx codes. -/
def raisesForStatus (s : Nat) : Bool := 400 ≤ s && s < 600

def finalFallbackText : String :=
  "The story concludes with a sense of resolution and completion."

def silentFallbackText : String :=
  "The GM seems silent... but the adventure continues!"

def bothFailedText : String :=
  "Error: Both streaming and non-streaming requests failed"

/-- The paired try/except around the two `requests.post` calls in
`chat_streaming`: a failed (or 4xx/5xx) streaming request falls back once
to a non-streaming request; if that also fails the error text is yielded.
The boolean records whether the `stream` flag is still set. -/
def attemptPosts (env : StreamEnv) : Except String (HttpResp × Bool) :=
  match env.firstPost with
  | .resp r =>
    if raisesForStatus r.status then
      match env.secondPost with
      | .exn _ => .error bothFailedText
      | .resp r2 => if raisesForStatus r2.status then .error bothFailedText else .ok (r2, false)
    else .ok (r, true)
  | .exn _ =>
    match env.secondPost with
    | .exn _ => .error bothFailedText
    | .resp r2 => if raisesForStatus r2.status then .error bothFailedText else .ok (r2, false)

/-- The non-streaming branch of `chat_streaming` (extraction of
`choices[0].message.content` with dict/list defaults, `KeyError` /
`IndexError` / decode errors caught locally).  Returns the yielded chunks
and the value of `full_content`; `.error` carries an exception escaping to
the outer handler. -/
def nonStreamRead (r : HttpResp) : Except (List String × String) (List String × String) :=
  match r.body with
  | .error m => .ok (["Error parsing response: " ++ m], "")
  | .ok result =>
    match (result.getField "choices").getD (.arr [.obj []]) with
    | .arr l =>
      match l.head? with
      | none => .ok (["Error parsing response: IndexError"], "")
      | some first =>
        match first with
        | .obj _ =>
          match (first.getField "message").getD (.obj []) with
          | .obj mfs =>
            match (JVal.getField (.obj mfs) "content").getD (.str "") with
            | .str s => if s ≠ "" then .ok ([s], s) else .ok ([], "")
            | v => if v.truthy then .error ([], "TypeError") else .ok ([], "")
          | _ => .error ([], "AttributeError")
        | _ => .error ([], "AttributeError")
    | .obj _ => .ok (["Error parsing response: KeyError"], "")
    | .str s => if s = "" then .ok (["Error parsing response: IndexError"], "")
                else .error ([], "AttributeError")
    | _ => .error ([], "TypeError")

/-- `ChatClient.chat_streaming`: returns the full list of yielded text
fragments.  The outer `except Exception` converts any escaping exception
into a final `"Request failed: ..."` fragment after the fragments already
yielded. -/
def chat_streaming (c : ChatClient) (env : StreamEnv) (_messages : List Message) :
    List String :=
  if c.is_final_step then
    if chat c env.chatPost ≠ "" then [chat c env.chatPost] else [finalFallbackText]
  else
    match attemptPosts env with
    | .error m => [m]
    | .ok (r, streaming) =>
      if r.status ≠ 200 then
        ["HTTP " ++ natStr r.status ++ ": " ++ (⟨r.text.data.take 200⟩ : String)]
      else if streaming then
        match parse_stream_simple env.jsonParse (c.detected = "anthropic") r.lines with
        | (chunks, some m) => chunks ++ ["Request failed: " ++ m]
        | (chunks, none) =>
          if pyStrip (strJoin chunks) = "" then chunks ++ [silentFallbackText]
          else chunks
      else
        match nonStreamRead r with
        | .error (ys, m) => ys ++ ["Request failed: " ++ m]
        | .ok (ys, full) =>
          if pyStrip full = "" then ys ++ [silentFallbackText] else ys

/-! ## Game state (`game_logic.py`: `GameState`) -/

/-- `GameState`'s mutable fields (the chat logger's file is external;
its possible write failures are modelled in `StepEnv`). -/
structure GState where
  gm_history : List Message
  conversation : List (String × String)
  step_count : Nat
deriving DecidableEq

/-- The continuation prompt of `take_step_streaming` (non-final step). -/
def continuePromptText (pc : Int) : String :=
  "I choose option " ++ pyIntStr pc ++
    ". Describe the result and give me 4 new numbered options to continue the adventure."

/-- The ending prompt of `take_step_streaming` (final step). -/
def finalPromptText (pc : Int) (stepCount maxSteps : Nat) : String :=
  "I choose option " ++ pyIntStr pc ++ ".\n\n" ++
  "THIS IS THE ABSOLUTE FINAL STEP OF OUR ADVENTURE (step " ++
    natStr stepCount ++ " of " ++ natStr maxSteps ++
    "). \n\n" ++
  "CRITICAL INSTRUCTIONS FOR YOUR FINAL RESPONSE:\n" ++
  "1. RESOLVE the story completely based on choice " ++ pyIntStr pc ++ "\n" ++
  "2. PROVIDE a satisfying conclusion with full closure\n" ++
  "3. WRAP UP all story threads and character arcs\n" ++
  "4. DO NOT include any numbered options or choices\n" ++
  "5. DO NOT leave the story open-ended\n" ++
  "6. WRITE a complete narrative ending (3 maximum)\n" ++
  "7. BEGIN your response with proper narrative, NOT with \"You\", \"As\", or other incomplete sentence starters\n" ++
  "8. END with a definitive statement that the adventure is complete\n" ++
  "9. MAKE SURE the response is a complete, well-formed story conclusion\n\n" ++
  "Write the final conclusion of our adventure now:"

/-- The hand-written fallback conclusions of the final-step post-processing
(with the player choice interpolated as in the f-strings). -/
def fallbackEndings (pc : Int) : List String :=
  ["With choice " ++ pyIntStr pc ++ ", the adventure takes its final turn. The hero faces the ultimate challenge with courage and determination. All the skills learned throughout the journey come together in this decisive moment. The conflict reaches its resolution as allies rally to help. Peace returns to the land as the threat is finally overcome. The hero is celebrated by all who were saved. The quest is complete, and the legend begins. The adventure ends with triumph and the promise of new tales to come.",
   "Option " ++ pyIntStr pc ++ " leads to the climactic finale. The mysteries unraveled throughout the journey finally make sense as the pieces fall into place. The hero\x27s wisdom and bravery shine through in this crucial hour. Friends and allies unite for the final push against darkness. Victory comes at last, though not without sacrifice and growth. The world is forever changed by the choices made along the way. Stories will be told of this great adventure. The tale concludes, but its impact will echo through the ages.",
   "The final choice of " ++ pyIntStr pc ++ " brings everything to its destined conclusion. All the characters met along the way play their part in the grand finale. The hero\x27s journey transforms not just themselves, but everyone they encountered. The evil is vanquished through cleverness and collaboration rather than force alone. The kingdom celebrates as peace is restored to all the lands. New friendships forged in adventure will last a lifetime. The hero returns home changed and wiser. The adventure ends, leaving behind a legacy of hope and courage."]

/-- The problematic starter words checked on the final step. -/
def problematicStarts : List String :=
  ["you", "as", "the", "and", "but", "or", "while", "when", "if"]

/-- The character class `[\.\):]` of the numbered-option regex. -/
def isOptPunct (c : Char) : Bool := c = '.' || c = ')' || c = ':'

/-- No digit immediately followed by one of `.`, `)`, `:` anywhere in the
list — the two-character shape of a numbered-option marker such as
`"1."`. -/
def noBadPairB : List Char → Bool
  | a :: b :: t => !(a.isDigit && isOptPunct b) && noBadPairB (b :: t)
  | _ => true

/-- Match `\d+[\.\):][^\n]*` at the head of `s`; on success return the
remainder after the matched span. -/
def matchDigitsOpt (s : List Char) : Option (List Char) :=
  if (s.takeWhile Char.isDigit).isEmpty then none
  else
    match s.dropWhile Char.isDigit with
    | c :: r => if isOptPunct c then some (r.dropWhile (fun d => d ≠ '\n')) else none
    | [] => none

/-- Match `\n?\d+[\.\):][^\n]*` at the head of `s` (the regex of the
final-step clean-up, `re.sub(r"\n?\d+[\.\):][^\n]*", "", ...)`). -/
def tryMatchOpt : List Char → Option (List Char)
  | '\n' :: t => matchDigitsOpt t
  | s => matchDigitsOpt s

theorem matchDigitsOpt_length {s r : List Char} (h : matchDigitsOpt s = some r) :
    r.length + 2 ≤ s.length := by
  unfold matchDigitsOpt at h
  by_cases hne : (s.takeWhile Char.isDigit).isEmpty
  · rw [if_pos hne] at h; cases h
  · rw [if_neg hne] at h
    rcases hd : s.dropWhile Char.isDigit with _ | ⟨c, rest⟩ <;> rw [hd] at h
    · cases h
    · have h' : (if isOptPunct c = true then
          some (rest.dropWhile (fun d => decide (d ≠ '\n'))) else none) = some r := h
      by_cases hp : isOptPunct c = true
      · rw [if_pos hp] at h'
        have hr := (Option.some.inj h').symm
        have h1 : r.length ≤ rest.length := by
          rw [hr]; exact (List.dropWhile_sublist _).length_le
        have h2 : (c :: rest).length ≤ s.length := by
          rw [← hd]; exact (List.dropWhile_sublist _).length_le
        have h4 : (s.takeWhile Char.isDigit).length + (s.dropWhile Char.isDigit).length
            = s.length := by
          rw [← List.length_append, List.takeWhile_append_dropWhile]
        have h5 : 1 ≤ (s.takeWhile Char.isDigit).length := by
          cases hq : s.takeWhile Char.isDigit with
          | nil => rw [hq] at hne; simp at hne
          | cons _ _ => simp
        rw [hd] at h4
        simp only [List.length_cons] at h4 h2
        omega
      · rw [if_neg hp] at h'; cases h'

theorem tryMatchOpt_length {s r : List Char} (h : tryMatchOpt s = some r) :
    r.length < s.length := by
  unfold tryMatchOpt at h
  split at h
  · rename_i t
    have := matchDigitsOpt_length h
    simp only [List.length_cons]
    omega
  · have := matchDigitsOpt_length h
    omega

/-- Fuel-driven left-to-right scan removing every match of the
numbered-option pattern (each step consumes at least one character, so a
fuel of `s.length` is always sufficient; see `reSubFuel_eq_of_le`). -/
def reSubFuel : Nat → List Char → List Char
  | 0, s => s
  | fuel + 1, s =>
    match tryMatchOpt s with
    | some r => reSubFuel fuel r
    | none =>
      match s with
      | [] => []
      | c :: t => c :: reSubFuel fuel t

/-- `re.sub(r"\n?\d+[\.\):][^\n]*", "", s)`: scan left to right, removing
every match of the numbered-option pattern. -/
def reSubNumbered (s : List Char) : List Char := reSubFuel s.length s

/-- `s.endswith((".", "!", "?"))`. -/
def endsTerminal (s : String) : Bool :=
  match s.data.getLast? with
  | some c => c = '.' || c = '!' || c = '?'
  | none => false

/-- Lines 163–168: strip, then remove numbered-option patterns, then strip. -/
def cleanedResponse (streamed : String) : String :=
  pyStrip ⟨reSubNumbered (pyStrip streamed).data⟩

/-- Lines 171–189: the "problematic response" heuristic (short, bad
starter word, or empty). -/
def isProblematic (cleaned : String) : Bool :=
  decide (pyWordCount cleaned < 20) ||
  problematicStarts.any (fun w => strStarts (pyLower cleaned) (w ++ " ")) ||
  cleaned == ""

/-- The final-step post-processing of `take_step_streaming`
(lines 158–225 of `game_logic.py`): strip, remove numbered-option
patterns, replace problematic responses by a random fallback conclusion,
ensure terminal punctuation.  `fallbackIdx` drives `random.choice`. -/
def finalizeResponse (pc : Int) (fallbackIdx : Nat) (streamed : String) : String :=
  let cleaned1 := cleanedResponse streamed
  let cleaned2 :=
    if isProblematic cleaned1 then (fallbackEndings pc).getD (fallbackIdx % 3) ""
    else cleaned1
  if endsTerminal cleaned2 then cleaned2 else cleaned2 ++ "."

/-- The conversation update of the final step (lines 228–231): replace a
trailing GM entry, otherwise append one. -/
def commitFinalConv (conv : List (String × String)) (txt : String) :
    List (String × String) :=
  match conv.getLast? with
  | some e => if e.1 == "GM" then conv.dropLast ++ [("GM", txt)] else conv ++ [("GM", txt)]
  | none => conv ++ [("GM", txt)]

/-- One tuple yielded by `take_step_streaming`:
`(success, conversation, choice, fragment)`. -/
structure StepYield where
  ok : Bool
  conv : List (String × String)
  choice : Option Int
  frag : String
deriving DecidableEq

/-- Environment of one `take_step_streaming` call: the random oracles, the
fragments produced by `chat_client.chat_streaming`, and the possible
file-write exceptions of the two `chat_logger.append_message` calls. -/
structure StepEnv where
  randIdx : Nat
  fallbackIdx : Nat
  chunks : List String
  playerLogExn : Option String
  gmLogExn : Option String

/-- `f"{ErrorMessages.GAME_STEP}: {str(e)}"`. -/
def gameStepErr (m : String) : String := "Error during game step: " ++ m

/-- Running accumulations of the streamed chunks: for each chunk, the
accumulated `streamed_response` including it, paired with the chunk. -/
def chunkPrefixesAux (acc : String) : List String → List (String × String)
  | [] => []
  | ch :: rest => (acc ++ ch, ch) :: chunkPrefixesAux (acc ++ ch) rest

def chunkPrefixes (chunks : List String) : List (String × String) :=
  chunkPrefixesAux "" chunks

/-- The body of `GameState.take_step_streaming` after the player choice has
been resolved.  The trace pairs every yielded tuple with the `GameState`
as it stands at that yield; a raised exception appends the failure yield
produced by the `except` clause. -/
def take_step_core (st : GState) (pc : Int) (maxSteps : Nat) (env : StepEnv) :
    List (StepYield × GState) :=
  -- lines 101–103: record and log the player choice, first yield
  let st1 : GState :=
    { st with conversation := st.conversation ++ [("Player", pyIntStr pc)] }
  match env.playerLogExn with
  | some m =>
    [({ ok := false, conv := st1.conversation, choice := none, frag := gameStepErr m }, st1)]
  | none =>
    let y0 : StepYield :=
      { ok := true, conv := st1.conversation, choice := some pc, frag := "" }
    -- lines 105–115: bump the counter, compute the final-step flag
    let st2 : GState := { st1 with step_count := st1.step_count + 1 }
    let isFinal := decide (st2.step_count ≥ maxSteps)
    -- lines 117–138: build the prompt and append it to gm_history
    let prompt :=
      if isFinal then finalPromptText pc st2.step_count maxSteps
      else continuePromptText pc
    let st3 : GState := { st2 with gm_history := st2.gm_history ++ [⟨"user", prompt⟩] }
    -- lines 140–156: stream the GM response; every chunk yields a copy of
    -- the transcript extended with the accumulated text
    let streamYields :=
      (chunkPrefixes env.chunks).map fun p =>
        ({ ok := true, conv := st3.conversation ++ [("GM", p.1)], choice := some pc,
           frag := p.2 }, st3)
    let streamed := strJoin env.chunks
    -- lines 158–231: final-step post-processing and transcript replacement
    let streamedFinal :=
      if isFinal then finalizeResponse pc env.fallbackIdx streamed else streamed
    let st4 : GState :=
      if isFinal then { st3 with conversation := commitFinalConv st3.conversation streamedFinal }
      else st3
    -- line 234: commit the assistant turn to gm_history
    let st5 : GState := { st4 with gm_history := st4.gm_history ++ [⟨"assistant", streamedFinal⟩] }
    -- lines 237–238: append the GM transcript entry (non-final steps)
    let st6 : GState :=
      if isFinal then st5
      else { st5 with conversation := st5.conversation ++ [("GM", streamedFinal)] }
    -- line 240: log the GM turn (may raise); line 246: final yield
    match env.gmLogExn with
    | some m =>
      (y0, st1) :: streamYields ++
        [({ ok := false, conv := st6.conversation, choice := none, frag := gameStepErr m }, st6)]
    | none =>
      (y0, st1) :: streamYields ++
        [({ ok := true, conv := st6.conversation, choice := some pc, frag := streamedFinal }, st6)]

/-- `GameState.take_step_streaming`: an omitted choice is drawn by
`random.choice([1, 2, 3, 4])` (driven by `env.randIdx`). -/
def take_step_streaming (st : GState) (playerChoice : Option Int) (maxSteps : Nat)
    (env : StepEnv) : List (StepYield × GState) :=
  match playerChoice with
  | some pc => take_step_core st pc maxSteps env
  | none => take_step_core st (([1, 2, 3, 4] : List Int).getD (env.randIdx % 4) 1) maxSteps env

/-- One tuple yielded by `start_game_streaming`. -/
structure StartYield where
  ok : Bool
  conv : List (String × String)
  frag : String
deriving DecidableEq

/-- Environment of one `start_game_streaming` call. -/
structure StartEnv where
  chunks : List String
  gmLogExn : Option String

def beginPromptText : String :=
  "Begin the adventure. Set the scene and give me 4 options to choose from."

def startFallbackText : String :=
  "The adventure begins, though the GM gave no details."

/-- `GameState.start_game_streaming` as a trace of yields and states. -/
def start_game_streaming (st : GState) (env : StartEnv) :
    List (StartYield × GState) :=
  let st1 : GState := { st with gm_history := st.gm_history ++ [⟨"user", beginPromptText⟩] }
  let streamYields :=
    (chunkPrefixes env.chunks).map fun p =>
      ({ ok := true, conv := st1.conversation ++ [("GM", p.1)], frag := p.2 }, st1)
  let streamed0 := strJoin env.chunks
  let streamed := if pyStrip streamed0 = "" then startFallbackText else streamed0
  let st2 : GState :=
    { st1 with gm_history := st1.gm_history ++ [⟨"assistant", streamed⟩],
               conversation := st1.conversation ++ [("GM", streamed)] }
  match env.gmLogExn with
  | some m =>
    streamYields ++ [({ ok := false, conv := [], frag := "Failed to start game: " ++ m }, st2)]
  | none =>
    streamYields ++ [({ ok := true, conv := st2.conversation, frag := streamed }, st2)]

/-- `GameState.reset`. -/
def GState.reset (st : GState) : GState :=
  { gm_history := st.gm_history.take 1, conversation := [], step_count := 0 }

/-! ## Supporting lemmas: strings and stripping -/

theorem strMk_eq_empty_iff {l : List Char} : ((⟨l⟩ : String) = "") ↔ l = [] := by
  constructor
  · intro h; have := congrArg String.data h; simpa using this
  · intro h; rw [h]

theorem pyStrip_data (s : String) : (pyStrip s).data = pyStripChars s.data := rfl

theorem mem_dropWhile_of_not {p : Char → Bool} {c : Char} :
    ∀ {l : List Char}, c ∈ l → p c = false → c ∈ l.dropWhile p := by
  intro l
  induction l with
  | nil => intro h; cases h
  | cons a t ih =>
    intro hmem hns
    by_cases ha : p a = true
    · rw [List.dropWhile_cons_of_pos ha]
      rcases List.mem_cons.mp hmem with h | h
      · subst h; rw [hns] at ha; cases ha
      · exact ih h hns
    · rw [List.dropWhile_cons_of_neg ha]
      exact hmem

theorem head_dropWhile_false {p : Char → Bool} :
    ∀ {l : List Char} {a : Char} {t : List Char},
      l.dropWhile p = a :: t → p a = false := by
  intro l
  induction l with
  | nil => intro a t h; cases h
  | cons b m ih =>
    intro a t h
    by_cases hb : p b = true
    · rw [List.dropWhile_cons_of_pos hb] at h; exact ih h
    · rw [List.dropWhile_cons_of_neg hb] at h
      cases h; simpa using hb

theorem mem_pyStripChars {c : Char} {l : List Char}
    (hmem : c ∈ l) (hns : isPySpace c = false) : c ∈ pyStripChars l := by
  unfold pyStripChars
  apply List.mem_reverse.mpr
  apply mem_dropWhile_of_not _ hns
  apply List.mem_reverse.mpr
  exact mem_dropWhile_of_not hmem hns

theorem pyStrip_ne_empty_of_mem {s : String} {c : Char}
    (hmem : c ∈ s.data) (hns : isPySpace c = false) : pyStrip s ≠ "" := by
  intro h
  have hd := strMk_eq_empty_iff.mp h
  exact List.ne_nil_of_mem (mem_pyStripChars hmem hns) hd

theorem pyStripChars_has_nonspace {l : List Char} (h : pyStripChars l ≠ []) :
    ∃ c ∈ pyStripChars l, isPySpace c = false := by
  rcases hd : ((l.dropWhile isPySpace).reverse.dropWhile isPySpace) with _ | ⟨a, t⟩
  · exfalso; apply h; unfold pyStripChars; rw [hd]; rfl
  · refine ⟨a, ?_, head_dropWhile_false hd⟩
    unfold pyStripChars; rw [hd]
    exact List.mem_reverse.mpr (List.mem_cons_self a t)

/-- Stripping an already-stripped non-empty string cannot give the empty
string. -/
theorem pyStrip_pyStrip_ne {s : String} (h : pyStrip s ≠ "") :
    pyStrip (pyStrip s) ≠ "" := by
  have hne : pyStripChars s.data ≠ [] := fun hn => h (by unfold pyStrip; rw [hn])
  obtain ⟨c, hc, hns⟩ := pyStripChars_has_nonspace hne
  exact pyStrip_ne_empty_of_mem (s := pyStrip s) hc hns

theorem pyStrip_append_left_ne {a b : String} {c : Char}
    (hc : c ∈ a.data) (hns : isPySpace c = false) : pyStrip (a ++ b) ≠ "" := by
  apply pyStrip_ne_empty_of_mem (c := c) _ hns
  rw [String.data_append]
  exact List.mem_append_left _ hc

theorem strJoin_concat (a : List String) (x : String) :
    strJoin (a ++ [x]) = strJoin a ++ x := by
  induction a with
  | nil => simp [strJoin]
  | cons s t ih => simp [strJoin, ih, String.append_assoc]

/-! ## Supporting lemmas: `chat` and `chat_streaming` -/

theorem anthropicBlocksExtract_ok_some :
    ∀ {l : List JVal} {t : String}, anthropicBlocksExtract l = .ok (some t) →
      ∃ s, t = pyStrip s := by
  intro l
  induction l with
  | nil => intro t h; cases h
  | cons b rest ih =>
    intro t h
    unfold anthropicBlocksExtract at h
    split at h
    · split at h
      · split at h
        · split at h
          · injection h with h1
            injection h1 with h2
            exact ⟨_, h2.symm⟩
          · exact ih h
        · split at h
          · cases h
          · exact ih h
      · exact ih h
    · cases h

theorem pyStrip_append_right_ne {a b : String} {c : Char}
    (hc : c ∈ b.data) (hns : isPySpace c = false) : pyStrip (a ++ b) ≠ "" := by
  apply pyStrip_ne_empty_of_mem (c := c) _ hns
  rw [String.data_append]
  exact List.mem_append_right _ hc

theorem mem_strData_append_left {a b : String} {c : Char} (h : c ∈ a.data) :
    c ∈ (a ++ b).data := by
  rw [String.data_append]; exact List.mem_append_left _ h

theorem strJoin_single (x : String) : strJoin [x] = x := by
  cases x with
  | mk l => show String.mk (l ++ []) = String.mk l; simp

/-- Every return value of `chat` is either empty or survives stripping:
error strings start with a non-space letter, and extracted content is
already the result of a strip. -/
theorem chat_empty_or_strip_ne (c : ChatClient) (post : PostResult) :
    chat c post = "" ∨ pyStrip (chat c post) ≠ "" := by
  unfold chat
  split
  · exact Or.inr (pyStrip_append_left_ne (c := 'R') (by decide) (by decide))
  · split
    · exact Or.inr (pyStrip_append_left_ne (c := 'E') (by decide) (by decide))
    · split
      · exact Or.inr (pyStrip_append_left_ne (c := 'R') (by decide) (by decide))
      · split
        · split
          · split
            · exact Or.inr (pyStrip_ne_empty_of_mem (c := 'E') (by decide) (by decide))
            · split
              · exact Or.inr (pyStrip_append_left_ne (c := 'R') (by decide) (by decide))
              · rename_i hsome
                obtain ⟨s, hs⟩ := anthropicBlocksExtract_ok_some hsome
                subst hs
                by_cases hz : pyStrip s = ""
                · exact Or.inl hz
                · exact Or.inr (pyStrip_pyStrip_ne hz)
              · exact Or.inr (pyStrip_ne_empty_of_mem (c := 'E') (by decide) (by decide))
          · exact Or.inr (pyStrip_ne_empty_of_mem (c := 'E') (by decide) (by decide))
        · split
          · rename_i v _
            by_cases hz : pyStrip v = ""
            · exact Or.inl hz
            · exact Or.inr (pyStrip_pyStrip_ne hz)
          · exact Or.inr (pyStrip_ne_empty_of_mem (c := 'E') (by decide) (by decide))

theorem attemptPosts_error_eq {env : StreamEnv} {m : String}
    (h : attemptPosts env = .error m) : m = bothFailedText := by
  unfold attemptPosts at h
  split at h
  · split at h
    · split at h
      · injection h with h1; exact h1.symm
      · split at h
        · injection h with h1; exact h1.symm
        · cases h
    · cases h
  · split at h
    · injection h with h1; exact h1.symm
    · split at h
      · injection h with h1; exact h1.symm
      · cases h

theorem nonStreamRead_ok_shape {r : HttpResp} {ys : List String} {full : String}
    (h : nonStreamRead r = .ok (ys, full)) :
    full = "" ∨ (ys = [full] ∧ full ≠ "") := by
  unfold nonStreamRead at h
  split at h
  · injection h with h1
    exact Or.inl (congrArg Prod.snd h1).symm
  · split at h
    · split at h
      · injection h with h1
        exact Or.inl (congrArg Prod.snd h1).symm
      · split at h
        · split at h
          · split at h
            · split at h
              · rename_i hs
                injection h with h1
                have h2 := (congrArg Prod.fst h1).symm
                have h3 := (congrArg Prod.snd h1).symm
                subst h3
                exact Or.inr ⟨h2, hs⟩
              · injection h with h1
                exact Or.inl (congrArg Prod.snd h1).symm
            · split at h
              · cases h
              · injection h with h1
                exact Or.inl (congrArg Prod.snd h1).symm
          · cases h
        · cases h
    · injection h with h1
      exact Or.inl (congrArg Prod.snd h1).symm
    · split at h
      · injection h with h1
        exact Or.inl (congrArg Prod.snd h1).symm
      · cases h
    · cases h

/-- C3: for every configuration and every network outcome (success, HTTP
failure, connection failure, undecodable or malformed stream lines, or a
mid-stream exception), `chat_streaming` yields at least one fragment, the
concatenation of all yielded fragments is not empty or whitespace-only,
and — being a total function of the modelled environment — no exception
propagates to the caller. -/
theorem c3_chat_streaming_always_yields (c : ChatClient) (env : StreamEnv)
    (messages : List Message) :
    chat_streaming c env messages ≠ [] ∧
    pyStrip (strJoin (chat_streaming c env messages)) ≠ "" := by
  unfold chat_streaming
  split
  · -- final-step path: one fragment from `chat`, or the canned conclusion
    split
    · rename_i hne
      refine ⟨by simp, ?_⟩
      rcases chat_empty_or_strip_ne c env.chatPost with h | h
      · exact absurd h hne
      · simpa [strJoin] using h
    · exact ⟨by simp, by decide⟩
  · split
    · -- both posts failed
      rename_i m h
      rw [attemptPosts_error_eq h]
      exact ⟨by simp, by decide⟩
    · split
      · -- non-200 status
        refine ⟨by simp, ?_⟩
        rw [strJoin_single]
        apply pyStrip_ne_empty_of_mem (c := 'H') _ (by decide)
        apply mem_strData_append_left
        apply mem_strData_append_left
        apply mem_strData_append_left
        decide
      · split
        · split
          · -- stream aborted mid-iteration: error fragment appended
            refine ⟨by simp, ?_⟩
            rw [strJoin_concat]
            exact pyStrip_append_right_ne (c := 'R')
              (by rw [String.data_append]; exact List.mem_append_left _ (by decide))
              (by decide)
          · split
            · -- empty accumulated content: fallback appended
              refine ⟨by simp, ?_⟩
              rw [strJoin_concat]
              exact pyStrip_append_right_ne (c := 'T') (by decide) (by decide)
            · -- non-empty accumulated content
              rename_i chunks _ _ hne
              refine ⟨?_, hne⟩
              intro hnil
              rw [hnil] at hne
              exact hne (by decide)
        · split
          · -- exception escaping the non-streaming read
            refine ⟨by simp, ?_⟩
            rw [strJoin_concat]
            exact pyStrip_append_right_ne (c := 'R')
              (by rw [String.data_append]; exact List.mem_append_left _ (by decide))
              (by decide)
          · split
            · -- empty `full_content`: fallback appended
              refine ⟨by simp, ?_⟩
              rw [strJoin_concat]
              exact pyStrip_append_right_ne (c := 'T') (by decide) (by decide)
            · -- content found: `ys = [full]` with a non-whitespace strip
              rename_i ys full hok hne
              rcases nonStreamRead_ok_shape hok with h | ⟨h1, _⟩
              · rw [h] at hne; exact absurd (by decide) hne
              · subst h1
                refine ⟨by simp, ?_⟩
                simpa [strJoin] using hne

/-! ## Supporting lemmas: string append -/

theorem str_append_empty (a : String) : a ++ "" = a := by
  cases a with
  | mk l => show String.mk (l ++ []) = String.mk l; simp

theorem str_empty_append (a : String) : "" ++ a = a := by
  cases a with
  | mk l => show String.mk ([] ++ l) = String.mk l; simp

theorem str_append_ne_left {a b : String} (h : a ≠ "") : a ++ b ≠ "" := by
  intro hc
  apply h
  cases a with
  | mk l =>
    cases b with
    | mk m =>
      have hd : l ++ m = [] := strMk_eq_empty_iff.mp hc
      have : l = [] := (List.append_eq_nil.mp hd).1
      rw [this]

/-! ## Supporting lemmas: the Anthropic system-message concatenation -/

theorem systemConcat_fold (msgs : List Message) :
    ∀ acc, (msgs.foldl (fun acc m =>
        if m.role == "system" then (if acc ≠ "" then acc ++ "\n\n" else acc) ++ m.content
        else acc) acc)
      = (systemContents msgs).foldl
          (fun a c => (if a ≠ "" then a ++ "\n\n" else a) ++ c) acc := by
  induction msgs with
  | nil => intro acc; rfl
  | cons m t ih =>
    intro acc
    rw [List.foldl_cons]
    by_cases hm : (m.role == "system") = true
    · rw [if_pos hm]
      rw [show systemContents (m :: t) = m.content :: systemContents t from by
        simp [systemContents, List.filter_cons, hm]]
      rw [List.foldl_cons]
      exact ih _
    · rw [if_neg hm]
      rw [show systemContents (m :: t) = systemContents t from by
        simp [systemContents, List.filter_cons, hm]]
      exact ih _

theorem foldAcc_ne (cs : List String) :
    ∀ acc, acc ≠ "" →
      cs.foldl (fun a c => (if a ≠ "" then a ++ "\n\n" else a) ++ c) acc
        = acc ++ strJoin (cs.map (fun c => "\n\n" ++ c)) := by
  induction cs with
  | nil => intro acc _; simp [strJoin, str_append_empty]
  | cons c t ih =>
    intro acc h
    rw [List.foldl_cons, if_pos h, ih _ (str_append_ne_left (str_append_ne_left h))]
    simp [strJoin, String.append_assoc]

theorem specBlankLineJoin_cons (c : String) (t : List String) :
    specBlankLineJoin (c :: t) = c ++ strJoin (t.map (fun x => "\n\n" ++ x)) := by
  induction t generalizing c with
  | nil => simp [specBlankLineJoin, strJoin, str_append_empty]
  | cons d u ih =>
    show c ++ "\n\n" ++ specBlankLineJoin (d :: u) = _
    rw [ih]
    simp [strJoin, String.append_assoc]

/-- What the accumulation loop of `_build_anthropic_payload` actually
computes: the blank-line join of the system contents after dropping the
leading empty contents (a separator is only inserted once the accumulator
is non-empty). -/
theorem systemConcat_characterization (msgs : List Message) :
    systemConcat msgs
      = specBlankLineJoin ((systemContents msgs).dropWhile (· == "")) := by
  rw [systemConcat, systemConcat_fold]
  generalize systemContents msgs = cs
  induction cs with
  | nil => rfl
  | cons c t ih =>
    rw [List.foldl_cons]
    by_cases hc : c = ""
    · subst hc
      rw [List.dropWhile_cons_of_pos (by simp)]
      rw [show (if ("" : String) ≠ "" then ("" : String) ++ "\n\n" else "") ++ "" = "" by
        simp [str_append_empty]]
      exact ih
    · rw [List.dropWhile_cons_of_neg (by simpa using hc)]
      rw [show (if ("" : String) ≠ "" then ("" : String) ++ "\n\n" else "") ++ c = c by
        simp [str_empty_append]]
      rw [foldAcc_ne t c hc]
      exact (specBlankLineJoin_cons c t).symm

/-- C4 counterexample: with a first system message of empty content
followed by one with content `"hi"`, the payload's system field is
`"hi"`, not the blank-line-separated concatenation `"\n\nhi"` of the
system contents, so the claim as stated fails on this input. -/
theorem c4_counterexample :
    (build_anthropic_payload (some "claude-3-haiku-20240307") false {}
        [⟨"system", ""⟩, ⟨"system", "hi"⟩, ⟨"user", "u"⟩] false).system
      ≠ some (specBlankLineJoin (systemContents
          [⟨"system", ""⟩, ⟨"system", "hi"⟩, ⟨"user", "u"⟩])) := by
  decide

/-- C4 (amended): for the Anthropic dialect the outgoing messages array is
exactly the input with system messages filtered out (so it contains no
system-role message); `max_tokens` is always present; and the top-level
system field (present iff non-empty) is the blank-line-separated
concatenation of the system contents after dropping leading empty
contents — the separator is inserted only once a non-empty content has
been accumulated. -/
theorem c4_anthropic_system_handling (model : Option String) (finalStep : Bool)
    (settings : AISettings) (messages : List Message) (stream : Bool) :
    (build_anthropic_payload model finalStep settings messages stream).messages
        = messages.filter (fun m => m.role ≠ "system") ∧
    ((build_anthropic_payload model finalStep settings messages stream).messages.countP
        (fun m => m.role == "system")) = 0 ∧
    (build_anthropic_payload model finalStep settings messages stream).max_tokens.isSome
        = true ∧
    (build_anthropic_payload model finalStep settings messages stream).system
      = (if systemConcat messages ≠ "" then some (systemConcat messages) else none) ∧
    systemConcat messages
      = specBlankLineJoin ((systemContents messages).dropWhile (· == "")) := by
  obtain ⟨T, M, P⟩ := settings
  have hcnt : (messages.filter (fun m => m.role ≠ "system")).countP
      (fun m => m.role == "system") = 0 := by
    rw [List.countP_eq_zero]
    intro m hm
    have := (List.mem_filter.mp hm).2
    simpa using this
  refine ⟨?_, ?_, ?_, ?_, systemConcat_characterization messages⟩ <;>
    cases finalStep <;>
    rcases M with _ | m <;> rcases T with _ | tv <;> rcases P with _ | pv <;>
    simp [build_anthropic_payload, systemConcat, hcnt]

/-! ## C5: final-turn generation parameters -/

/-- The final-turn token cap hard-coded in both payload builders. -/
def finalTurnTokenCap : Nat := 400

/-- C5: with the final-turn flag set, the payload built for any dialect
carries a token budget of 400 (≤ the final-turn cap) and temperature 0.5;
with the flag clear, a configured `max_tokens` generation parameter is
passed through unchanged, unaffected by the cap. -/
theorem c5_final_turn_budget (model : Option String) (detected : String)
    (cfg : ProviderConfig) (settings : AISettings) (messages : List Message)
    (stream : Bool) :
    ((build_payload model detected cfg true settings messages stream).max_tokens
        = some finalTurnTokenCap ∧
      finalTurnTokenCap ≤ finalTurnTokenCap ∧
      (build_payload model detected cfg true settings messages stream).temperature
        = some (1/2 : Rat)) ∧
    (∀ m : Nat, settings.max_tokens = some m →
      (build_payload model detected cfg false settings messages stream).max_tokens
        = some m) := by
  obtain ⟨T, M, P⟩ := settings
  constructor
  · by_cases h : cfg.payloadStyle == "anthropic" <;>
      simp [build_payload, build_anthropic_payload, build_openai_payload, h,
        finalTurnTokenCap]
  · intro m hm
    simp only at hm
    subst hm
    by_cases h : cfg.payloadStyle == "anthropic" <;>
      rcases T with _ | tv <;> rcases P with _ | pv <;>
      simp [build_payload, build_anthropic_payload, build_openai_payload, h]

/-- Witness for C5: a concrete non-final Groq-dialect payload keeps its
configured 777-token budget. -/
theorem c5_final_turn_budget_witness :
    (build_payload (some "llama-3.1-8b-instant") "groq" groqPattern.config false
        { max_tokens := some 777 } [] true).max_tokens = some 777 :=
  (c5_final_turn_budget (some "llama-3.1-8b-instant") "groq" groqPattern.config
    { max_tokens := some 777 } [] true).2 777 rfl

/-! ## C1: provider detection priority -/

/-- C1: dialect detection follows the fixed priority order.  (1) If some
provider's URL pattern occurs in the lowercased URL, the first such
provider wins; (2) in that case the result does not depend on the
explicit hint or the model at all; (3) otherwise a non-empty hint other
than `"auto"` that matches a provider name or alias wins; (4) otherwise a
model-name indicator match wins; (5) otherwise the OpenAI-compatible
config is used under the id `generic_openai`; and (6) in particular a URL
containing `api.openai.com` with explicit hint `"anthropic"` resolves to
the OpenAI dialect. -/
theorem c1_detection_priority :
    (∀ (url hint model : Option String) (d : ProviderPattern),
        detectionPatterns.find? (urlMatches (pyLower (url.getD ""))) = some d →
        detect_provider url hint model = (d.pname, d.config)) ∧
    (∀ (url hintA hintB modelA modelB : Option String),
        detectionPatterns.any (urlMatches (pyLower (url.getD ""))) = true →
        detect_provider url hintA modelA = detect_provider url hintB modelB) ∧
    (∀ (url hint model : Option String) (d : ProviderPattern),
        detectionPatterns.find? (urlMatches (pyLower (url.getD ""))) = none →
        pyLower (hint.getD "") ≠ "" → pyLower (hint.getD "") ≠ "auto" →
        detectionPatterns.find? (hintMatches (pyLower (hint.getD ""))) = some d →
        detect_provider url hint model = (d.pname, d.config)) ∧
    (∀ (url hint model : Option String) (d : ProviderPattern),
        detectionPatterns.find? (urlMatches (pyLower (url.getD ""))) = none →
        (if pyLower (hint.getD "") ≠ "" ∧ pyLower (hint.getD "") ≠ "auto" then
            detectionPatterns.find? (hintMatches (pyLower (hint.getD "")))
          else none) = none →
        detectionPatterns.find? (modelMatches (pyLower (model.getD ""))) = some d →
        detect_provider url hint model = (d.pname, d.config)) ∧
    (∀ (url hint model : Option String),
        detectionPatterns.find? (urlMatches (pyLower (url.getD ""))) = none →
        (if pyLower (hint.getD "") ≠ "" ∧ pyLower (hint.getD "") ≠ "auto" then
            detectionPatterns.find? (hintMatches (pyLower (hint.getD "")))
          else none) = none →
        detectionPatterns.find? (modelMatches (pyLower (model.getD ""))) = none →
        detect_provider url hint model = ("generic_openai", openaiPattern.config)) ∧
    (∀ model : Option String,
        detect_provider (some "https://api.openai.com/v1/chat/completions")
          (some "anthropic") model = ("openai", openaiPattern.config)) := by
  have hurl : ∀ (url hint model : Option String) (d : ProviderPattern),
      detectionPatterns.find? (urlMatches (pyLower (url.getD ""))) = some d →
      detect_provider url hint model = (d.pname, d.config) := by
    intro url hint model d h
    simp only [detect_provider]
    rw [h]
  refine ⟨hurl, ?_, ?_, ?_, ?_, ?_⟩
  · intro url hintA hintB modelA modelB hany
    obtain ⟨d, hd, hmatch⟩ := List.any_eq_true.mp hany
    obtain ⟨d2, hd2⟩ := Option.isSome_iff_exists.mp
      (List.find?_isSome.mpr ⟨d, hd, hmatch⟩)
    rw [hurl url hintA modelA d2 hd2, hurl url hintB modelB d2 hd2]
  · intro url hint model d hnone hne hauto hhint
    simp only [detect_provider]
    rw [hnone, if_pos ⟨hne, hauto⟩, hhint]
  · intro url hint model d hnone hhint hmodel
    simp only [detect_provider]
    rw [hnone, hhint, hmodel]
  · intro url hint model hnone hhint hmodel
    simp only [detect_provider]
    rw [hnone, hhint, hmodel]
  · intro model
    exact hurl _ _ model openaiPattern rfl

/-- Witness for C1: scenario B at a concrete model value — URL containing
`api.openai.com` with hint `"anthropic"` resolves to the OpenAI dialect. -/
theorem c1_detection_priority_witness :
    detect_provider (some "https://api.openai.com/v1/chat/completions")
        (some "anthropic") (some "claude-3-opus-20240229")
      = ("openai", openaiPattern.config) :=
  c1_detection_priority.2.2.2.2.2 (some "claude-3-opus-20240229")

/-! ## C7: streaming content extraction paths -/

/-- C7 counterexample: the OpenAI dialect detected from the URL declares
only the two `choices`-based content paths; on the chunk
`{"response": "hi"}` none of the declared paths resolves, yet the
streaming extractor returns `"hi"` (and so the chunk is yielded) — the
extractor uses a fixed hard-coded path list, not the detected dialect's
declared `content_paths`. -/
theorem c7_counterexample :
    detect_provider (some "https://api.openai.com/v1/chat/completions") none none
        = ("openai", openaiPattern.config) ∧
    firstPathString openaiPattern.config.contentPaths
        (.obj [("response", .str "hi")]) = none ∧
    extract_content_simple "x" (some (.obj [("response", .str "hi")])) false
        = "hi" :=
  ⟨rfl, rfl, rfl⟩

/-- C7 (amended): for every chunk, the non-Anthropic extractor returns the
first of the FIXED path list `choices[0].delta.content`,
`choices[0].message.content`, `message.content`, `response` resolving to
a non-empty string (regardless of the detected dialect's declared paths);
the Anthropic extractor applies the fixed `content_block_delta` /
`text_delta` handling; an unparseable chunk extracts nothing; and a data
line whose extraction is empty contributes no yield to the stream. -/
theorem c7_extraction_fixed_paths (s : String) (j : JVal) (b : Bool)
    (parse : String → Option JVal) (rest : List RawLine) :
    (¬(s = "" ∨ s = "[DONE]" ∨ s = "data: [DONE]") →
      extract_content_simple s (some j) false
          = (firstPathString fixedExtractPaths j).getD "" ∧
      extract_content_simple s (some j) true = anthropicDeltaText j) ∧
    extract_content_simple s none b = "" ∧
    (∀ d : String, d ≠ "" →
      strStarts (pyStrip d) "event:" = false →
      strStarts (pyStrip d) "data: " = true →
      pyStrip ⟨(pyStrip d).data.drop 6⟩ ≠ "[DONE]" →
      pyStrip ⟨(pyStrip d).data.drop 6⟩ ≠ "data: [DONE]" →
      extract_content_simple (pyStrip ⟨(pyStrip d).data.drop 6⟩)
          (parse (pyStrip ⟨(pyStrip d).data.drop 6⟩)) b = "" →
      parse_stream_simple parse b (.txt d :: rest)
        = parse_stream_simple parse b rest) := by
  refine ⟨?_, ?_, ?_⟩
  · intro hs
    have h1 : ¬(s = "" || s = "[DONE]" || s = "data: [DONE]") = true := by
      simp only [Bool.or_eq_true, decide_eq_true_eq]
      tauto
    constructor <;> (unfold extract_content_simple; rw [if_neg h1]) <;> rfl
  · unfold extract_content_simple
    split <;> rfl
  · intro d hd0 hev hdata hdone1 hdone2 hext
    conv_lhs => rw [parse_stream_simple]
    rw [if_neg hd0, if_neg (by simp [hev]), if_pos hdata,
      if_neg (by simp [hdone1, hdone2])]
    by_cases hne : pyStrip ⟨(pyStrip d).data.drop 6⟩ ≠ ""
    · rw [if_pos hne, hext]
      rw [if_neg (by simp)]
    · rw [if_neg hne]

/-- Witness for C7 (amended): a concrete skipped chunk — a data line whose
payload resolves no path yields nothing. -/
theorem c7_extraction_fixed_paths_witness :
    parse_stream_simple (fun _ => some (.obj [("done", .bool true)])) false
        [.txt "data: x"] = parse_stream_simple (fun _ => some (.obj [("done", .bool true)])) false [] :=
  (c7_extraction_fixed_paths "x" .null false
      (fun _ => some (.obj [("done", .bool true)])) []).2.2 "data: x"
    (by decide) (by decide) (by decide) (by decide) (by decide) rfl

/-! ## C8: non-streaming `chat` error handling -/

/-- C8: `chat` is a total function of the modelled response (every
exception becomes a returned string, none propagates); a non-200 status
returns an explicit error string; a 200 response in which none of the
tried content paths resolves to a non-empty string returns an explicit
error string; and on the body
`{"choices":[{"message":{"content":"hello"}}]}` with an OpenAI-compatible
dialect it returns exactly `"hello"`. -/
theorem c8_chat_error_handling (c : ChatClient) (r : HttpResp) :
    (r.status ≠ 200 → chat c (.resp r) = "Error: HTTP " ++ natStr r.status) ∧
    (∀ j : JVal, r.status = 200 → r.body = .ok j → ¬c.detected = "anthropic" →
      firstPathString chatContentPaths j = none →
      chat c (.resp r) = "Error: Could not extract content from response") ∧
    (∀ m : String, chat c (.exn m) = "Request failed: " ++ m) ∧
    chat { api_url := some "https://api.openai.com/v1/chat/completions",
           model := some "gpt-4o-mini", api_provider := none,
           ai_settings := {}, is_final_step := false }
        (.resp { status := 200, text := "", lines := [],
                 body := .ok (.obj [("choices", .arr [.obj [("message",
                   .obj [("content", .str "hello")])]])]) })
      = "hello" := by
  refine ⟨?_, ?_, fun m => rfl, rfl⟩
  · intro h
    simp only [chat, if_pos h]
  · intro j h200 hbody hdet hnone
    have hs : ¬r.status ≠ 200 := by simp [h200]
    simp only [chat, hbody, if_neg hs, if_neg hdet, hnone]

/-- Witness for C8: a concrete 404 response produces the explicit HTTP
error string. -/
theorem c8_chat_error_handling_witness :
    chat { api_url := some "https://api.openai.com/v1/chat/completions",
           model := some "gpt-4o-mini", api_provider := none,
           ai_settings := {}, is_final_step := false }
        (.resp { status := 404, text := "not found", lines := [], body := .error "nf" })
      = "Error: HTTP " ++ natStr 404 :=
  (c8_chat_error_handling _ _).1 (by decide)

/-! ## Supporting lemmas: the numbered-option pair invariant -/

theorem nbp_nil : noBadPairB [] = true := rfl

theorem nbp_singleton (a : Char) : noBadPairB [a] = true := rfl

theorem nbp_tail {a : Char} {l : List Char} (h : noBadPairB (a :: l) = true) :
    noBadPairB l = true := by
  cases l with
  | nil => rfl
  | cons b t =>
    unfold noBadPairB at h
    simp only [Bool.and_eq_true] at h
    exact h.2

theorem nbp_cons_head {a b : Char} {t : List Char}
    (h : noBadPairB (a :: b :: t) = true) : (a.isDigit && isOptPunct b) = false := by
  unfold noBadPairB at h
  simp only [Bool.and_eq_true] at h
  cases hx : (a.isDigit && isOptPunct b)
  · rfl
  · rw [hx] at h
    simp at h

theorem nbp_cons_of {a : Char} {l : List Char} (hl : noBadPairB l = true)
    (hb : ∀ b t, l = b :: t → (a.isDigit && isOptPunct b) = false) :
    noBadPairB (a :: l) = true := by
  cases l with
  | nil => rfl
  | cons b t =>
    unfold noBadPairB
    rw [Bool.and_eq_true]
    exact ⟨by rw [hb b t rfl]; rfl, hl⟩

theorem nbp_append_left : ∀ {x y : List Char},
    noBadPairB (x ++ y) = true → noBadPairB x = true := by
  intro x
  induction x with
  | nil => intro y _; rfl
  | cons a x' ih =>
    intro y h
    cases x' with
    | nil => rfl
    | cons b x'' =>
      unfold noBadPairB
      rw [Bool.and_eq_true]
      refine ⟨?_, ih (y := y) (nbp_tail h)⟩
      have := nbp_cons_head (t := x'' ++ y) h
      rw [this]
      rfl

theorem nbp_append_right : ∀ {x y : List Char},
    noBadPairB (x ++ y) = true → noBadPairB y = true := by
  intro x
  induction x with
  | nil => intro y h; exact h
  | cons a x' ih => intro y h; exact ih (nbp_tail h)

theorem nbp_dropWhile {p : Char → Bool} :
    ∀ {l : List Char}, noBadPairB l = true → noBadPairB (l.dropWhile p) = true := by
  intro l
  induction l with
  | nil => intro _; rfl
  | cons a t ih =>
    intro h
    by_cases ha : p a = true
    · rw [List.dropWhile_cons_of_pos ha]
      exact ih (nbp_tail h)
    · rw [List.dropWhile_cons_of_neg ha]
      exact h

theorem nbp_pyStripChars {l : List Char} (h : noBadPairB l = true) :
    noBadPairB (pyStripChars l) = true := by
  unfold pyStripChars
  set m := l.dropWhile isPySpace with hm
  have hm1 : noBadPairB m = true := nbp_dropWhile h
  have hsplit : m.reverse.takeWhile isPySpace ++ m.reverse.dropWhile isPySpace
      = m.reverse := List.takeWhile_append_dropWhile _ _
  have hm2 : (m.reverse.dropWhile isPySpace).reverse
      ++ (m.reverse.takeWhile isPySpace).reverse = m := by
    rw [← List.reverse_append, hsplit, List.reverse_reverse]
  exact nbp_append_left (y := (m.reverse.takeWhile isPySpace).reverse) (by rw [hm2]; exact hm1)

theorem nbp_dropLast {l : List Char} (h : noBadPairB l = true) :
    noBadPairB l.dropLast = true := by
  by_cases hl : l = []
  · subst hl; rfl
  · have := List.dropLast_append_getLast hl
    exact nbp_append_left (y := [l.getLast hl]) (by rw [this]; exact h)

theorem digit_not_newline {c : Char} (h : c.isDigit = true) : c ≠ '\n' := by
  intro he; subst he; cases h

theorem punct_not_digit {b : Char} (h : isOptPunct b = true) : b.isDigit = false := by
  unfold isOptPunct at h
  simp only [Bool.or_eq_true, decide_eq_true_eq] at h
  rcases h with (h | h) | h <;> (rw [h]; rfl)

theorem tryMatchOpt_cons_ne {c : Char} {t : List Char} (h : c ≠ '\n') :
    tryMatchOpt (c :: t) = matchDigitsOpt (c :: t) := by
  unfold tryMatchOpt
  split
  · rename_i heq
    cases heq
    exact absurd rfl h
  · rfl

theorem tryMatchOpt_head {s r : List Char} (h : tryMatchOpt s = some r) :
    r = [] ∨ r.head? = some '\n' := by
  have key : ∀ {s0 : List Char}, matchDigitsOpt s0 = some r → r = [] ∨ r.head? = some '\n' := by
    intro s0 h0
    unfold matchDigitsOpt at h0
    split at h0
    · cases h0
    · rcases hd : s0.dropWhile Char.isDigit with _ | ⟨c, rest⟩ <;> rw [hd] at h0
      · cases h0
      · have h0' : (if isOptPunct c = true then
            some (rest.dropWhile (fun d => decide (d ≠ '\n'))) else none) = some r := h0
        split at h0'
        · have hr := (Option.some.inj h0').symm
          rcases hw : rest.dropWhile (fun d => decide (d ≠ '\n')) with _ | ⟨a, t2⟩
          · exact Or.inl (by rw [hr, hw])
          · right
            have ha := head_dropWhile_false hw
            have : a = '\n' := by simpa using ha
            rw [hr, hw, this]
            rfl
        · cases h0'
  unfold tryMatchOpt at h
  split at h
  · exact key h
  · exact key h

theorem reSubFuel_head (fuel : Nat) : ∀ s : List Char, s.length ≤ fuel →
    (reSubFuel fuel s).head? = none ∨ (reSubFuel fuel s).head? = some '\n' ∨
    (tryMatchOpt s = none ∧ (reSubFuel fuel s).head? = s.head?) := by
  induction fuel with
  | zero =>
    intro s hs
    have : s = [] := List.length_eq_zero.mp (Nat.le_zero.mp hs)
    subst this
    exact Or.inl rfl
  | succ f ih =>
    intro s hs
    cases htm : tryMatchOpt s with
    | some r =>
      have hlen : r.length ≤ f := by
        have := tryMatchOpt_length htm
        omega
      have hred : reSubFuel (f + 1) s = reSubFuel f r := by
        simp only [reSubFuel, htm]
      rw [hred]
      rcases tryMatchOpt_head htm with hr | hr
      · subst hr
        rcases ih [] (by simp) with h | h | ⟨_, h⟩
        · exact Or.inl h
        · exact Or.inr (Or.inl h)
        · exact Or.inl (by rw [h]; rfl)
      · rcases ih r hlen with h | h | ⟨_, h⟩
        · exact Or.inl h
        · exact Or.inr (Or.inl h)
        · exact Or.inr (Or.inl (by rw [h]; exact hr))
    | none =>
      cases s with
      | nil => exact Or.inl rfl
      | cons c t =>
        have hred : reSubFuel (f + 1) (c :: t) = c :: reSubFuel f t := by
          simp only [reSubFuel, htm]
        rw [hred]
        exact Or.inr (Or.inr ⟨rfl, rfl⟩)

theorem reSubFuel_noBadPair (fuel : Nat) : ∀ s : List Char, s.length ≤ fuel →
    noBadPairB (reSubFuel fuel s) = true := by
  induction fuel with
  | zero =>
    intro s hs
    have : s = [] := List.length_eq_zero.mp (Nat.le_zero.mp hs)
    subst this
    rfl
  | succ f ih =>
    intro s hs
    cases htm : tryMatchOpt s with
    | some r =>
      have hlen : r.length ≤ f := by
        have := tryMatchOpt_length htm
        omega
      have hred : reSubFuel (f + 1) s = reSubFuel f r := by
        simp only [reSubFuel, htm]
      rw [hred]
      exact ih r hlen
    | none =>
      cases s with
      | nil => rfl
      | cons c t =>
        have ht : t.length ≤ f := by
          simp only [List.length_cons] at hs
          omega
        have hred : reSubFuel (f + 1) (c :: t) = c :: reSubFuel f t := by
          simp only [reSubFuel, htm]
        rw [hred]
        apply nbp_cons_of (ih t ht)
        intro b t' hbt
        by_cases hcd : c.isDigit = true
        · by_cases hbp : isOptPunct b = true
          · exfalso
            -- a digit `c` followed by a surviving punct head would have matched
            have hhead : (reSubFuel f t).head? = some b := by rw [hbt]; rfl
            rcases reSubFuel_head f t ht with hh | hh | ⟨htm2, hh⟩
            · rw [hhead] at hh; cases hh
            · rw [hhead] at hh
              have : b = '\n' := by injection hh
              subst this
              cases hbp
            · rw [hhead] at hh
              -- t begins with b, so `tryMatchOpt (c :: t)` matches
              rcases hT : t with _ | ⟨b2, t2⟩
              · rw [hT] at hh; cases hh
              · rw [hT] at hh
                have hb2 : b2 = b := by
                  injection hh with hx
                  exact hx.symm
                subst hb2
                have hmatch : tryMatchOpt (c :: t)
                    = some (t2.dropWhile (fun d => decide (d ≠ '\n'))) := by
                  rw [tryMatchOpt_cons_ne (digit_not_newline hcd)]
                  unfold matchDigitsOpt
                  rw [if_neg (by
                    rw [List.takeWhile_cons_of_pos hcd]
                    simp)]
                  rw [List.dropWhile_cons_of_pos hcd, hT]
                  rw [List.dropWhile_cons_of_neg (by rw [punct_not_digit hbp]; simp)]
                  show (if isOptPunct b2 = true then
                      some (t2.dropWhile (fun d => decide (d ≠ '\n'))) else none)
                    = some (t2.dropWhile (fun d => decide (d ≠ '\n')))
                  rw [if_pos hbp]
                rw [htm] at hmatch
                cases hmatch
          · simp [hbp]
        · simp [hcd]

theorem reSubNumbered_noBadPair (s : List Char) :
    noBadPairB (reSubNumbered s) = true :=
  reSubFuel_noBadPair s.length s (Nat.le_refl _)

theorem cleanedResponse_noBadPair (s : String) :
    noBadPairB (cleanedResponse s).data = true := by
  unfold cleanedResponse
  rw [pyStrip_data]
  exact nbp_pyStripChars (reSubNumbered_noBadPair _)

/-! ## Supporting lemmas: digits, fallback conclusions, finalize -/

theorem digitChar_isDigit {m : Nat} (h : m < 10) : (Nat.digitChar m).isDigit = true := by
  interval_cases m <;> decide

theorem natDigitsAux_all_digit :
    ∀ (fuel n : Nat), ∀ c ∈ natDigitsAux fuel n, c.isDigit = true := by
  intro fuel
  induction fuel with
  | zero =>
    intro n c hc
    have : c = Nat.digitChar (n % 10) := by simpa [natDigitsAux] using hc
    rw [this]
    exact digitChar_isDigit (Nat.mod_lt _ (by omega))
  | succ f ih =>
    intro n c hc
    rw [natDigitsAux] at hc
    split at hc
    · rename_i h
      have : c = Nat.digitChar n := by simpa using hc
      rw [this]
      exact digitChar_isDigit h
    · rcases List.mem_append.mp hc with h1 | h2
      · exact ih (n / 10) c h1
      · have : c = Nat.digitChar (n % 10) := by simpa using h2
        rw [this]
        exact digitChar_isDigit (Nat.mod_lt _ (by omega))

theorem natDigits_all_digit : ∀ n : Nat, ∀ c ∈ natDigits n, c.isDigit = true :=
  fun n => natDigitsAux_all_digit n n

theorem pyIntStr_no_punct (pc : Int) : ∀ c ∈ (pyIntStr pc).data, isOptPunct c = false := by
  have key : ∀ d : Char, d.isDigit = true → isOptPunct d = false := by
    intro d hd
    cases hp : isOptPunct d
    · rfl
    · rw [punct_not_digit hp] at hd; cases hd
  intro c hc
  unfold pyIntStr at hc
  split at hc
  · rcases List.mem_cons.mp hc with h | h
    · rw [h]; rfl
    · exact key c (natDigits_all_digit _ c h)
  · exact key c (natDigits_all_digit _ c hc)

theorem nbp_of_no_punct : ∀ {l : List Char},
    (∀ c ∈ l, isOptPunct c = false) → noBadPairB l = true := by
  intro l
  induction l with
  | nil => intro _; rfl
  | cons a t ih =>
    intro h
    apply nbp_cons_of (ih fun c hc => h c (List.mem_cons_of_mem a hc))
    intro b t' hbt
    rw [h b (by rw [hbt]; exact List.mem_cons_of_mem a (List.mem_cons_self b t'))]
    simp

theorem nbp_append : ∀ {x y : List Char}, noBadPairB x = true → noBadPairB y = true →
    (∀ a b, x.getLast? = some a → y.head? = some b →
      (a.isDigit && isOptPunct b) = false) →
    noBadPairB (x ++ y) = true := by
  intro x
  induction x with
  | nil => intro y _ hy _; simpa using hy
  | cons a x' ih =>
    intro y hx hy hb
    cases x' with
    | nil =>
      show noBadPairB (a :: y) = true
      apply nbp_cons_of hy
      intro b t hbt
      exact hb a b rfl (by rw [hbt]; rfl)
    | cons a2 x'' =>
      show noBadPairB (a :: (a2 :: x'' ++ y)) = true
      apply nbp_cons_of
      · exact ih (nbp_tail hx) hy (fun p q hp hq =>
          hb p q (by rw [List.getLast?_cons_cons]; exact hp) hq)
      · intro b t hbt
        have hb2 : a2 = b := by injection hbt
        rw [← hb2]
        exact nbp_cons_head hx

/-- Glue for the fallback conclusions: `(A ++ str(choice)) ++ B` has no
numbered-option pair when `A` and `B` have none, `A` ends in a space and
`B` starts with a non-punct character (the digits of the choice cannot
pair with either side). -/
theorem nbp_fallback_piece (A B : String) (pc : Int)
    (hA : noBadPairB A.data = true)
    (hB : noBadPairB B.data = true)
    (hAlast : A.data.getLast? = some ' ')
    (hBhead : ∀ b, B.data.head? = some b → isOptPunct b = false) :
    noBadPairB ((A ++ pyIntStr pc) ++ B).data = true := by
  rw [String.data_append, String.data_append]
  apply nbp_append _ hB _
  · apply nbp_append hA (nbp_of_no_punct (pyIntStr_no_punct pc)) _
    intro a b ha _
    rw [hAlast] at ha
    have : ' ' = a := by injection ha
    rw [← this]
    rfl
  · intro a b _ hb
    rw [hBhead b hb]
    simp

theorem nbp_fallback (pc : Int) : ∀ f ∈ fallbackEndings pc,
    noBadPairB f.data = true := by
  intro f hf
  unfold fallbackEndings at hf
  rcases List.mem_cons.mp hf with h | hf <;>
    [skip; rcases List.mem_cons.mp hf with h | hf] <;>
    [skip; skip; rcases List.mem_cons.mp hf with h | hf] <;>
    [skip; skip; skip; exact absurd hf (List.not_mem_nil f)] <;>
  · subst h
    apply nbp_fallback_piece <;>
      first
        | decide
        | (intro b hb
           have hx : _ = some b := hb
           injection hx with hy
           rw [← hy]
           rfl)

theorem endsTerminal_append_ne {x B : String} (hB : B.data ≠ [])
    (hlast : B.data.getLast? = some '.') : endsTerminal (x ++ B) = true := by
  unfold endsTerminal
  rw [String.data_append, List.getLast?_append_of_ne_nil _ hB, hlast]
  rfl

theorem endsTerminal_fallback (pc : Int) : ∀ f ∈ fallbackEndings pc,
    endsTerminal f = true := by
  intro f hf
  unfold fallbackEndings at hf
  rcases List.mem_cons.mp hf with h | hf <;>
    [skip; rcases List.mem_cons.mp hf with h | hf] <;>
    [skip; skip; rcases List.mem_cons.mp hf with h | hf] <;>
    [skip; skip; skip; exact absurd hf (List.not_mem_nil f)] <;>
  · subst h
    exact endsTerminal_append_ne (by decide) (by decide)

theorem getD_mem_fallback (pc : Int) (i : Nat) :
    (fallbackEndings pc).getD (i % 3) "" ∈ fallbackEndings pc := by
  have h3 : i % 3 = 0 ∨ i % 3 = 1 ∨ i % 3 = 2 := by omega
  rcases h3 with h | h | h <;> rw [h] <;> simp [fallbackEndings]

/-- The observable guarantees of the final-step post-processing: the
committed text ends with terminal punctuation; it contains no
digit-punctuation pair except possibly as its final two characters (the
appended period after a trailing digit); and a problematic response is
replaced by one of the fallback conclusions. -/
theorem finalizeResponse_props (pc : Int) (i : Nat) (s : String) :
    endsTerminal (finalizeResponse pc i s) = true ∧
    noBadPairB (finalizeResponse pc i s).data.dropLast = true ∧
    (isProblematic (cleanedResponse s) = true →
      finalizeResponse pc i s ∈ fallbackEndings pc) := by
  simp only [finalizeResponse]
  by_cases hp : isProblematic (cleanedResponse s) = true
  · rw [if_pos hp]
    have hmem : (fallbackEndings pc).getD (i % 3) "" ∈ fallbackEndings pc :=
      getD_mem_fallback pc i
    have hterm := endsTerminal_fallback pc _ hmem
    rw [if_pos hterm]
    exact ⟨hterm, nbp_dropLast (nbp_fallback pc _ hmem), fun _ => hmem⟩
  · rw [if_neg hp]
    have hnbp := cleanedResponse_noBadPair s
    by_cases ht : endsTerminal (cleanedResponse s) = true
    · rw [if_pos ht]
      exact ⟨ht, nbp_dropLast hnbp, fun hcontra => absurd hcontra hp⟩
    · rw [if_neg ht]
      have hd : ((cleanedResponse s) ++ ".").data
          = (cleanedResponse s).data ++ ['.'] := by
        rw [String.data_append]
      refine ⟨?_, ?_, fun hcontra => absurd hcontra hp⟩
      · unfold endsTerminal
        rw [hd, List.getLast?_concat]
        rfl
      · rw [hd, List.dropLast_concat]
        exact hnbp

/-! ## Supporting lemmas: the step trace -/

theorem getLast?_cons_concat {α : Type} (a : α) (l : List α) (z : α) :
    (a :: (l ++ [z])).getLast? = some z := by
  rw [← List.cons_append]
  exact List.getLast?_concat _

theorem commitFinalConv_player (conv : List (String × String)) (s txt : String) :
    commitFinalConv (conv ++ [("Player", s)]) txt
      = (conv ++ [("Player", s)]) ++ [("GM", txt)] := by
  unfold commitFinalConv
  rw [List.getLast?_concat]
  rfl

/-- C6 (amended): on the final step, the committed GM transcript entry is
exactly the post-processed text `finalizeResponse`; it ends with terminal
punctuation; it contains no digit-followed-by-`.`/`)`/`:` pair except
possibly as its final two characters (the terminal period appended after
a response ending in a digit); and a problematic (short / empty /
bad-starter) response is replaced by one of the hand-written fallback
conclusions chosen by the random index. -/
theorem c6_final_step_postprocessing (st : GState) (pc : Int) (maxSteps : Nat)
    (env : StepEnv) (hfinal : maxSteps ≤ st.step_count + 1)
    (hpl : env.playerLogExn = none) :
    ((take_step_streaming st (some pc) maxSteps env).getLast?.map
        (fun p => p.2.conversation.getLast?))
      = some (some ("GM", finalizeResponse pc env.fallbackIdx (strJoin env.chunks))) ∧
    endsTerminal (finalizeResponse pc env.fallbackIdx (strJoin env.chunks)) = true ∧
    noBadPairB
        (finalizeResponse pc env.fallbackIdx (strJoin env.chunks)).data.dropLast
      = true ∧
    (isProblematic (cleanedResponse (strJoin env.chunks)) = true →
      finalizeResponse pc env.fallbackIdx (strJoin env.chunks) ∈ fallbackEndings pc) := by
  obtain ⟨hterm, hnbp, hprob⟩ :=
    finalizeResponse_props pc env.fallbackIdx (strJoin env.chunks)
  refine ⟨?_, hterm, hnbp, hprob⟩
  obtain ⟨gh, cv, sc⟩ := st
  have hfin : decide (sc + 1 ≥ maxSteps) = true := decide_eq_true hfinal
  cases hgm : env.gmLogExn with
  | none =>
    simp only [take_step_streaming, take_step_core, hpl, hgm, hfin, if_true]
    rw [List.getLast?_concat]
    simp only [Option.map_some']
    rw [commitFinalConv_player, List.getLast?_concat]
  | some m =>
    simp only [take_step_streaming, take_step_core, hpl, hgm, hfin, if_true]
    rw [List.getLast?_concat]
    simp only [Option.map_some']
    rw [commitFinalConv_player, List.getLast?_concat]

/-- Witness for C6 (amended): an empty upstream response on the final step
commits a GM entry equal to the post-processed (fallback) text. -/
theorem c6_final_step_postprocessing_witness :
    ((take_step_streaming ⟨[⟨"system", "gm"⟩], [], 0⟩ (some 2) 1
        ⟨0, 0, [""], none, none⟩).getLast?.map
        (fun p => p.2.conversation.getLast?))
      = some (some ("GM", finalizeResponse 2 0 (strJoin [""]))) :=
  (c6_final_step_postprocessing ⟨[⟨"system", "gm"⟩], [], 0⟩ 2 1
    ⟨0, 0, [""], none, none⟩ (by decide) rfl).1

/-- C6 counterexample: a well-formed 21-word final response ending in the
digit `1` without punctuation survives the numbered-option strip and the
problematic-response check unchanged; the terminal-period append then
produces a final transcript entry containing the numbered-option pattern
`"1."`, so the claim as stated fails on this input. -/
theorem c6_counterexample :
    ((take_step_streaming ⟨[⟨"system", "gm"⟩], [], 0⟩ (some 2) 1
        ⟨0, 0, ["Victory comes to the weary travelers after seasons of hardship and doubt when their long search finally ends at tower 1"],
         none, none⟩).getLast?.map
        (fun p => p.2.conversation.getLast?.map (fun e => (e.1, strContains e.2 "1."))))
      = some (some ("GM", true)) := by
  decide

/-! ## C2: step counter and (non-)terminality -/

/-- C2 counterexample: a `GameState` that has already reached
`step_count = max_steps = 1` still accepts a further player turn — the
next `take_step_streaming` call succeeds, records a new `Player` entry in
the transcript, and increments the counter to 2 — refuting "no further
player turns are accepted in the same session". -/
theorem c2_counterexample :
    ((take_step_streaming ⟨[⟨"system", "gm"⟩], [("GM", "scene")], 1⟩ (some 3) 1
        ⟨0, 0, ["x"], none, none⟩).head?.map (fun p => (p.1.ok, p.1.conv)))
      = some (true, [("GM", "scene"), ("Player", "3")]) ∧
    ((take_step_streaming ⟨[⟨"system", "gm"⟩], [("GM", "scene")], 1⟩ (some 3) 1
        ⟨0, 0, ["x"], none, none⟩).getLast?.map (fun p => p.2.step_count))
      = some 2 := by
  constructor <;> decide

/-- C2 (amended): the step counter never decreases — every state along a
`take_step_streaming` trace has a counter ≥ the starting one,
`start_game_streaming` leaves it unchanged, and only `reset` sets it back
to 0.  However `step_count ≥ max_steps` is not terminal at the
`GameState` level: a subsequent `take_step_streaming` call still accepts
a further player turn (first yield succeeds and records the choice) and
increments the counter again. -/
theorem c2_step_count_monotone :
    (∀ (st : GState) (choice : Option Int) (maxSteps : Nat) (env : StepEnv),
      ∀ p ∈ take_step_streaming st choice maxSteps env,
        st.step_count ≤ p.2.step_count) ∧
    (∀ (st : GState) (env : StartEnv),
      ∀ p ∈ start_game_streaming st env, p.2.step_count = st.step_count) ∧
    (∀ st : GState, (GState.reset st).step_count = 0) ∧
    (∀ (st : GState) (pc : Int) (maxSteps : Nat) (env : StepEnv),
      maxSteps ≤ st.step_count → env.playerLogExn = none →
      ((take_step_streaming st (some pc) maxSteps env).head?.map
          (fun p => (p.1.ok, p.2.conversation)))
        = some (true, st.conversation ++ [("Player", pyIntStr pc)]) ∧
      ((take_step_streaming st (some pc) maxSteps env).getLast?.map
          (fun p => p.2.step_count)) = some (st.step_count + 1)) := by
  have core : ∀ (gh : List Message) (cv : List (String × String)) (sc : Nat)
      (pc : Int) (maxSteps : Nat) (env : StepEnv),
      ∀ p ∈ take_step_core ⟨gh, cv, sc⟩ pc maxSteps env,
        sc ≤ p.2.step_count := by
    intro gh cv sc pc maxSteps env p hp
    cases hpl : env.playerLogExn with
    | some m =>
      simp only [take_step_core, hpl] at hp
      rw [List.mem_singleton.mp hp]
    | none =>
      cases hfd : decide (sc + 1 ≥ maxSteps) <;> cases hgm : env.gmLogExn <;>
      · simp only [take_step_core, hpl, hgm, hfd, Bool.false_eq_true, if_false,
          if_true] at hp
        rcases List.mem_append.mp hp with h1 | h2
        · rcases List.mem_cons.mp h1 with h | h
          · rw [h]
          · obtain ⟨q, _, hqe⟩ := List.mem_map.mp h
            rw [← hqe]
            exact Nat.le_succ sc
        · rw [List.mem_singleton.mp h2]
          exact Nat.le_succ sc
  refine ⟨?_, ?_, fun st => rfl, ?_⟩
  · intro st choice maxSteps env p hp
    obtain ⟨gh, cv, sc⟩ := st
    cases choice with
    | some pc => exact core gh cv sc pc maxSteps env p hp
    | none => exact core gh cv sc _ maxSteps env p hp
  · intro st env p hp
    obtain ⟨gh, cv, sc⟩ := st
    cases hgm : env.gmLogExn <;>
    · simp only [start_game_streaming, hgm] at hp
      rcases List.mem_append.mp hp with h1 | h2
      · obtain ⟨q, _, hqe⟩ := List.mem_map.mp h1
        rw [← hqe]
      · rw [List.mem_singleton.mp h2]
  · intro st pc maxSteps env hge hpl
    obtain ⟨gh, cv, sc⟩ := st
    have hfd : decide (sc + 1 ≥ maxSteps) = true :=
      decide_eq_true (Nat.le_succ_of_le hge)
    constructor
    · cases hgm : env.gmLogExn <;>
      · simp only [take_step_streaming, take_step_core, hpl, hgm, hfd, if_true]
        rw [List.cons_append, List.head?_cons]
        rfl
    · cases hgm : env.gmLogExn <;>
      · simp only [take_step_streaming, take_step_core, hpl, hgm, hfd, if_true]
        rw [List.getLast?_concat]
        rfl

/-- Witness for C2 (amended): the non-terminality clause at a concrete
exhausted state. -/
theorem c2_step_count_monotone_witness :
    ((take_step_streaming ⟨[⟨"system", "g"⟩], [], 5⟩ (some 1) 3
        ⟨0, 0, [], none, none⟩).getLast?.map (fun p => p.2.step_count))
      = some 6 :=
  ((c2_step_count_monotone.2.2.2 ⟨[⟨"system", "g"⟩], [], 5⟩ 1 3
    ⟨0, 0, [], none, none⟩ (by decide) rfl).2)

/-! ## Supporting lemmas: substring containment -/

theorem isPrefixOf_append_self : ∀ (pat z : List Char), pat.isPrefixOf (pat ++ z) = true := by
  intro pat
  induction pat with
  | nil => intro z; cases z <;> rfl
  | cons c t ih =>
    intro z
    show ((c == c) && t.isPrefixOf (t ++ z)) = true
    rw [ih z, beq_self_eq_true]
    rfl

theorem listContains_nil_pat : ∀ l : List Char, listContains l [] = true := by
  intro l
  cases l <;> rfl

theorem listContains_mid : ∀ (x pat z : List Char),
    listContains (x ++ (pat ++ z)) pat = true := by
  intro x
  induction x with
  | nil =>
    intro pat z
    cases pat with
    | nil => exact listContains_nil_pat _
    | cons c t =>
      show ((c :: t).isPrefixOf (c :: (t ++ z)) || listContains (t ++ z) (c :: t)) = true
      rw [show (c :: t).isPrefixOf (c :: (t ++ z)) = true from isPrefixOf_append_self (c :: t) z]
      rfl
  | cons c t ih =>
    intro pat z
    show (pat.isPrefixOf (c :: (t ++ (pat ++ z))) || listContains (t ++ (pat ++ z)) pat) = true
    rw [ih pat z]
    simp

/-! ## C9: exception safety and commit-at-end -/

/-- C9: (i) a failure yield of `take_step_streaming` carries exactly the
live transcript at the moment of the exception plus a diagnostic message,
and the history committed before the call survives as a prefix — nothing
is corrupted; (ii) at every yield before the last one, no assistant
message has been added to `gm_history` and the transcript holds only the
new `Player` entry — the response text is committed only after the full
sequence is exhausted, so abandoning the iteration early leaves no
partially-applied response in permanent history; (iii) the successful
final yield commits the player entry and the full response text
exactly once. -/
theorem c9_exception_and_commit_safety (st : GState) (choice : Option Int)
    (maxSteps : Nat) (env : StepEnv) :
    (∀ y s2, (take_step_streaming st choice maxSteps env).getLast? = some (y, s2) →
      y.ok = false →
      y.conv = s2.conversation ∧ (∃ m, y.frag = gameStepErr m) ∧
      st.conversation <+: s2.conversation ∧ st.gm_history <+: s2.gm_history) ∧
    (∀ p ∈ (take_step_streaming st choice maxSteps env).dropLast,
      p.2.gm_history.filter (fun m => m.role == "assistant")
        = st.gm_history.filter (fun m => m.role == "assistant") ∧
      ∃ pc, p.2.conversation = st.conversation ++ [("Player", pyIntStr pc)]) ∧
    (∀ y s2, (take_step_streaming st choice maxSteps env).getLast? = some (y, s2) →
      y.ok = true → env.playerLogExn = none →
      ∃ pc txt, s2.conversation
          = (st.conversation ++ [("Player", pyIntStr pc)]) ++ [("GM", txt)] ∧
        y.conv = s2.conversation ∧ y.frag = txt) := by
  obtain ⟨gh, cv, sc⟩ := st
  have main : ∀ pc : Int,
      (∀ y s2, (take_step_core ⟨gh, cv, sc⟩ pc maxSteps env).getLast? = some (y, s2) →
        y.ok = false →
        y.conv = s2.conversation ∧ (∃ m, y.frag = gameStepErr m) ∧
        cv <+: s2.conversation ∧ gh <+: s2.gm_history) ∧
      (∀ p ∈ (take_step_core ⟨gh, cv, sc⟩ pc maxSteps env).dropLast,
        p.2.gm_history.filter (fun m => m.role == "assistant")
          = gh.filter (fun m => m.role == "assistant") ∧
        ∃ pc2, p.2.conversation = cv ++ [("Player", pyIntStr pc2)]) ∧
      (∀ y s2, (take_step_core ⟨gh, cv, sc⟩ pc maxSteps env).getLast? = some (y, s2) →
        y.ok = true → env.playerLogExn = none →
        ∃ pc2 txt, s2.conversation
            = (cv ++ [("Player", pyIntStr pc2)]) ++ [("GM", txt)] ∧
          y.conv = s2.conversation ∧ y.frag = txt) := by
    intro pc
    cases hpl : env.playerLogExn with
    | some m =>
      refine ⟨?_, ?_, ?_⟩
      · intro y s2 hlast _
        simp only [take_step_core, hpl] at hlast
        rw [List.getLast?_singleton] at hlast
        injection hlast with h
        injection h with ha hb
        subst ha; subst hb
        exact ⟨rfl, ⟨m, rfl⟩, List.prefix_append cv _, List.prefix_refl gh⟩
      · intro p hp
        simp only [take_step_core, hpl] at hp
        simp at hp
      · intro y s2 _ _ hplnone
        exact Option.noConfusion hplnone
    | none =>
      cases hfd : decide (sc + 1 ≥ maxSteps) <;> cases hgm : env.gmLogExn <;>
        refine ⟨?_, ?_, ?_⟩ <;>
        simp only [take_step_streaming, take_step_core, hpl, hgm, hfd,
          Bool.false_eq_true, if_false, if_true]
      case false.none.refine_1 =>
        intro y s2 hlast hok
        rw [List.getLast?_concat] at hlast
        injection hlast with h
        injection h with ha _
        rw [← ha] at hok
        cases hok
      case false.none.refine_2 =>
        intro p hp
        rw [List.dropLast_concat] at hp
        rcases List.mem_cons.mp hp with h | h
        · rw [h]
          exact ⟨rfl, pc, rfl⟩
        · obtain ⟨q, _, hqe⟩ := List.mem_map.mp h
          rw [← hqe]
          refine ⟨?_, pc, rfl⟩
          rw [List.filter_append]
          simp
      case false.none.refine_3 =>
        intro y s2 hlast _ _
        rw [List.getLast?_concat] at hlast
        injection hlast with h
        injection h with ha hb
        subst ha; subst hb
        exact ⟨pc, strJoin env.chunks, rfl, rfl, rfl⟩
      case false.some.refine_1 =>
        intro y s2 hlast _
        rw [List.getLast?_concat] at hlast
        injection hlast with h
        injection h with ha hb
        subst ha; subst hb
        refine ⟨rfl, ⟨_, rfl⟩, ?_, ?_⟩
        · exact (List.prefix_append cv _).trans (List.prefix_append _ _)
        · exact (List.prefix_append gh _).trans (List.prefix_append _ _)
      case false.some.refine_2 =>
        intro p hp
        rw [List.dropLast_concat] at hp
        rcases List.mem_cons.mp hp with h | h
        · rw [h]
          exact ⟨rfl, pc, rfl⟩
        · obtain ⟨q, _, hqe⟩ := List.mem_map.mp h
          rw [← hqe]
          refine ⟨?_, pc, rfl⟩
          rw [List.filter_append]
          simp
      case false.some.refine_3 =>
        intro y s2 hlast hok _
        rw [List.getLast?_concat] at hlast
        injection hlast with h
        injection h with ha _
        rw [← ha] at hok
        cases hok
      case true.none.refine_1 =>
        intro y s2 hlast hok
        rw [List.getLast?_concat] at hlast
        injection hlast with h
        injection h with ha _
        rw [← ha] at hok
        cases hok
      case true.none.refine_2 =>
        intro p hp
        rw [List.dropLast_concat] at hp
        rcases List.mem_cons.mp hp with h | h
        · rw [h]
          exact ⟨rfl, pc, rfl⟩
        · obtain ⟨q, _, hqe⟩ := List.mem_map.mp h
          rw [← hqe]
          refine ⟨?_, pc, rfl⟩
          rw [List.filter_append]
          simp
      case true.none.refine_3 =>
        intro y s2 hlast _ _
        rw [List.getLast?_concat] at hlast
        injection hlast with h
        injection h with ha hb
        subst ha; subst hb
        refine ⟨pc, finalizeResponse pc env.fallbackIdx (strJoin env.chunks),
          ?_, ?_, rfl⟩
        · rw [commitFinalConv_player]
        · rw [commitFinalConv_player]
      case true.some.refine_1 =>
        intro y s2 hlast _
        rw [List.getLast?_concat] at hlast
        injection hlast with h
        injection h with ha hb
        subst ha; subst hb
        refine ⟨by rw [commitFinalConv_player], ⟨_, rfl⟩, ?_, ?_⟩
        · rw [commitFinalConv_player]
          exact (List.prefix_append cv _).trans (List.prefix_append _ _)
        · exact (List.prefix_append gh _).trans (List.prefix_append _ _)
      case true.some.refine_2 =>
        intro p hp
        rw [List.dropLast_concat] at hp
        rcases List.mem_cons.mp hp with h | h
        · rw [h]
          exact ⟨rfl, pc, rfl⟩
        · obtain ⟨q, _, hqe⟩ := List.mem_map.mp h
          rw [← hqe]
          refine ⟨?_, pc, rfl⟩
          rw [List.filter_append]
          simp
      case true.some.refine_3 =>
        intro y s2 hlast hok _
        rw [List.getLast?_concat] at hlast
        injection hlast with h
        injection h with ha _
        rw [← ha] at hok
        cases hok
  cases choice with
  | some pc => exact main pc
  | none => exact main _

/-- Witness for C9: a concrete failing GM-log write surfaces as a final
failure yield carrying the live transcript. -/
theorem c9_exception_and_commit_safety_witness :
    ∃ y s2, (take_step_streaming ⟨[⟨"system", "g"⟩], [], 0⟩ (some 4) 9
        ⟨0, 0, ["hello there"], none, some "disk full"⟩).getLast? = some (y, s2) ∧
      y.conv = s2.conversation ∧ (∃ m, y.frag = gameStepErr m) := by
  refine ⟨_, _, rfl, ?_⟩
  have h := (c9_exception_and_commit_safety ⟨[⟨"system", "g"⟩], [], 0⟩ (some 4) 9
    ⟨0, 0, ["hello there"], none, some "disk full"⟩).1 _ _ rfl rfl
  exact ⟨h.1, h.2.1⟩

/-! ## C10: no range validation of the player choice -/

/-- C10: `take_step_streaming` performs no range validation: a supplied
choice — any integer, in range or not — is passed verbatim to the common
step body, recorded verbatim as a `Player` transcript entry in the very
first yield, and embedded unchanged in the prompt appended to
`gm_history`; only an omitted (`none`) choice draws a replacement from
`{1, 2, 3, 4}` via the random oracle. -/
theorem c10_no_choice_validation :
    (∀ (st : GState) (pc : Int) (maxSteps : Nat) (env : StepEnv),
      take_step_streaming st (some pc) maxSteps env
        = take_step_core st pc maxSteps env) ∧
    (∀ (st : GState) (maxSteps : Nat) (env : StepEnv),
      take_step_streaming st none maxSteps env
        = take_step_core st (([1, 2, 3, 4] : List Int).getD (env.randIdx % 4) 1)
            maxSteps env) ∧
    (∀ (st : GState) (maxSteps : Nat) (env : StepEnv),
      ([1, 2, 3, 4] : List Int).getD (env.randIdx % 4) 1 ∈ ([1, 2, 3, 4] : List Int)) ∧
    (∀ (st : GState) (pc : Int) (maxSteps : Nat) (env : StepEnv),
      ((take_step_streaming st (some pc) maxSteps env).head?.map
          (fun p => p.2.conversation))
        = some (st.conversation ++ [("Player", pyIntStr pc)])) ∧
    (∀ (pc : Int) (sc maxSteps : Nat),
      strContains (finalPromptText pc (sc + 1) maxSteps) (pyIntStr pc) = true ∧
      strContains (continuePromptText pc) (pyIntStr pc) = true) ∧
    (∀ (st : GState) (pc : Int) (maxSteps : Nat) (env : StepEnv),
      env.playerLogExn = none →
      ∃ prompt txt, ((take_step_streaming st (some pc) maxSteps env).getLast?.map
          (fun p => p.2.gm_history))
        = some (st.gm_history ++ ([⟨"user", prompt⟩] ++ [⟨"assistant", txt⟩])) ∧
        strContains prompt (pyIntStr pc) = true) := by
  have hcontains : ∀ (pc : Int) (sc maxSteps : Nat),
      strContains (finalPromptText pc (sc + 1) maxSteps) (pyIntStr pc) = true ∧
      strContains (continuePromptText pc) (pyIntStr pc) = true := by
    intro pc sc maxSteps
    constructor
    · unfold strContains finalPromptText
      simp only [String.data_append, List.append_assoc]
      exact listContains_mid _ _ _
    · unfold strContains continuePromptText
      simp only [String.data_append, List.append_assoc]
      exact listContains_mid _ _ _
  refine ⟨fun _ _ _ _ => rfl, fun _ _ _ => rfl, fun _ _ env => ?_, ?_, hcontains, ?_⟩
  · have h4 : env.randIdx % 4 < 4 := Nat.mod_lt _ (by omega)
    have := List.getD_eq_getElem (l := ([1, 2, 3, 4] : List Int)) (d := 1) h4
    rw [this]
    exact List.getElem_mem _
  · intro st pc maxSteps env
    obtain ⟨gh, cv, sc⟩ := st
    cases hpl : env.playerLogExn with
    | some m =>
      simp only [take_step_streaming, take_step_core, hpl]
      rfl
    | none =>
      cases hfd : decide (sc + 1 ≥ maxSteps) <;> cases hgm : env.gmLogExn <;>
      · simp only [take_step_streaming, take_step_core, hpl, hgm, hfd,
          Bool.false_eq_true, if_false, if_true]
        rw [List.cons_append, List.head?_cons]
        rfl
  · intro st pc maxSteps env hpl
    obtain ⟨gh, cv, sc⟩ := st
    cases hfd : decide (sc + 1 ≥ maxSteps) <;> cases hgm : env.gmLogExn
    case false.none =>
      refine ⟨continuePromptText pc, strJoin env.chunks, ?_, (hcontains pc sc maxSteps).2⟩
      simp only [take_step_streaming, take_step_core, hpl, hgm, hfd,
        Bool.false_eq_true, if_false]
      rw [List.getLast?_concat]
      simp only [Option.map_some']
      rw [List.append_assoc]
    case false.some =>
      refine ⟨continuePromptText pc, strJoin env.chunks, ?_, (hcontains pc sc maxSteps).2⟩
      simp only [take_step_streaming, take_step_core, hpl, hgm, hfd,
        Bool.false_eq_true, if_false]
      rw [List.getLast?_concat]
      simp only [Option.map_some']
      rw [List.append_assoc]
    case true.none =>
      refine ⟨finalPromptText pc (sc + 1) maxSteps,
        finalizeResponse pc env.fallbackIdx (strJoin env.chunks), ?_,
        (hcontains pc sc maxSteps).1⟩
      simp only [take_step_streaming, take_step_core, hpl, hgm, hfd, if_true]
      rw [List.getLast?_concat]
      simp only [Option.map_some']
      rw [List.append_assoc]
    case true.some =>
      refine ⟨finalPromptText pc (sc + 1) maxSteps,
        finalizeResponse pc env.fallbackIdx (strJoin env.chunks), ?_,
        (hcontains pc sc maxSteps).1⟩
      simp only [take_step_streaming, take_step_core, hpl, hgm, hfd, if_true]
      rw [List.getLast?_concat]
      simp only [Option.map_some']
      rw [List.append_assoc]

/-- Witness for C10: the out-of-range choice 7 is recorded verbatim in the
transcript and embedded unchanged in the prompt committed to history. -/
theorem c10_no_choice_validation_witness :
    ((take_step_streaming ⟨[⟨"system", "g"⟩], [], 0⟩ (some 7) 5
        ⟨0, 0, ["ok"], none, none⟩).head?.map (fun p => p.2.conversation))
      = some ([] ++ [("Player", pyIntStr 7)]) ∧
    (∃ prompt txt, ((take_step_streaming ⟨[⟨"system", "g"⟩], [], 0⟩ (some 7) 5
        ⟨0, 0, ["ok"], none, none⟩).getLast?.map (fun p => p.2.gm_history))
        = some ([⟨"system", "g"⟩] ++ ([⟨"user", prompt⟩] ++ [⟨"assistant", txt⟩])) ∧
      strContains prompt (pyIntStr 7) = true) :=
  ⟨c10_no_choice_validation.2.2.2.1 ⟨[⟨"system", "g"⟩], [], 0⟩ 7 5
      ⟨0, 0, ["ok"], none, none⟩,
    c10_no_choice_validation.2.2.2.2.2 ⟨[⟨"system", "g"⟩], [], 0⟩ 7 5
      ⟨0, 0, ["ok"], none, none⟩ rfl⟩

end RPChat
